import Mathlib

/-!
# Value unwrappers of the evaluator (`src/eval/unwrap.go`)

A shallow embedding of the unwrapper helpers: `Unwrap`, `One`, `Any`,
`String`, `Int`, `NonNegativeInt`, `FdOrClose`, `Callable`, `Iterable`.

Conventions of the embedding.

* Go `string` is a Lean `String`.  The integer parser inspects bytes; every
  byte of a non-ASCII character is at least `0x80` and so is never a digit, a
  sign or a letter, hence inspecting characters gives the same outcome.
* Go `int` is `Int`; the width of the host `int` (`strconv.IntSize`, 32 or 64)
  is the parameter `WordSize`.  Unsigned 64-bit arithmetic inside the parser
  is `Nat` arithmetic with an explicit `% 2 ^ 64`.
* A call that does not return (the context's `errorpf`, a failed index read)
  is the `error` case of `Except Failure`.
-/

namespace Eval

/-! ## The environment of the file -/

/-- Modelled from the spec: the position-annotated fatal error that the
evaluation context's `errorpf` raises; `errorpf` is not in this file.  It
carries the two offsets and the rendered message. -/
structure Diagnostic where
  /-- Offset where the highlighted span starts. -/
  begin_ : Int
  /-- Offset where the highlighted span stops. -/
  end_ : Int
  /-- The rendered message. -/
  message : String
  deriving DecidableEq, Repr

/-- The two ways a call can fail to return: the diagnostic raised through
`errorpf`, or the run-time failure of the index read `values[0]` on an empty
slice. -/
inductive Failure where
  | diagnostic (d : Diagnostic)
  | indexOutOfRange
  deriving DecidableEq, Repr

deriving instance DecidableEq for Except

/-- Modelled from the spec: the runtime value representation (`Value`,
`String`, `Callable`, `Iterable`) is declared outside this file.  A value is a
non-nil interface value, observed only through `Kind()` and the three dynamic
type tests. -/
structure Value where
  /-- The result of `Kind()`. -/
  kind : String
  /-- The string carried by the value when `.(String)` succeeds. -/
  str : Option String
  /-- Whether `.(Callable)` succeeds. -/
  callable : Bool
  /-- Whether `.(Iterable)` succeeds. -/
  iterable : Bool
  deriving DecidableEq, Repr

/-- The method `Kind()` of a value. -/
def Value.Kind (v : Value) : String := v.kind

/-- The type assertion `s, ok := v.(String)`: the string and `true`, or the
zero string and `false`. -/
def Value.assertString (v : Value) : String × Bool :=
  match v.str with
  | some s => (s, true)
  | none => ("", false)

/-- Modelled from the spec: the evaluation context `EvalCtx` is declared
outside this file; the unwrappers only hold a reference to it. -/
structure EvalCtx where
  /-- The name of the evaluation context. -/
  name : String
  deriving DecidableEq, Repr

/-- Modelled from the spec: `(*EvalCtx).errorpf(begin, end, format, args...)`,
absent from this file, never returns normally: it terminates the evaluation
with an error at `[begin, end)`.  The argument `msg` is the formatted text. -/
def EvalCtx.errorpf {α : Type} (_ctx : EvalCtx) (b e : Int) (msg : String) :
    Except Failure α :=
  .error (.diagnostic ⟨b, e, msg⟩)

/-- The rendering of an `int` by the verb `%d`: decimal digits, with a leading
minus sign for a negative number. -/
def formatInt (i : Int) : String :=
  if i < 0 then "-" ++ Nat.repr i.natAbs else Nat.repr i.natAbs

/-! ## The unwrappers -/

/-- The struct `unwrapperInner`. -/
structure unwrapperInner where
  /-- The evaluation context. -/
  ctx : EvalCtx
  /-- What is being unwrapped, for error messages. -/
  description : String
  /-- Start of the span pointed to when an error occurs. -/
  begin_ : Int
  /-- End of the span pointed to when an error occurs. -/
  end_ : Int
  /-- The values to unwrap. -/
  values : List Value
  deriving DecidableEq, Repr

/-- The method `(*unwrapperInner).error(want, gotfmt, gotargs...)`; `got` is
the text `fmt.Sprintf(gotfmt, gotargs...)`, and the message is the format
`"%s must be %s; got %s"` filled with the description, `want` and `got`. -/
def unwrapperInner.error {α : Type} (u : unwrapperInner) (want got : String) :
    Except Failure α :=
  u.ctx.errorpf u.begin_ u.end_ (u.description ++ " must be " ++ want ++ "; got " ++ got)

/-- The type `ValuesUnwrapper`, which unwraps a sequence of values. -/
structure ValuesUnwrapper where
  /-- The embedded `*unwrapperInner`. -/
  inner : unwrapperInner
  deriving DecidableEq, Repr

/-- The type `ValueUnwrapper`, which unwraps one value. -/
structure ValueUnwrapper where
  /-- The embedded `*unwrapperInner`. -/
  inner : unwrapperInner
  deriving DecidableEq, Repr

/-- The method `(*EvalCtx).Unwrap(desc, begin, end, vs)`. -/
def EvalCtx.Unwrap (ctx : EvalCtx) (desc : String) (b e : Int) (vs : List Value) :
    ValuesUnwrapper :=
  ⟨⟨ctx, desc, b, e, vs⟩⟩

/-- The method `ValuesUnwrapper.One()`. -/
def ValuesUnwrapper.One (u : ValuesUnwrapper) : Except Failure ValueUnwrapper := do
  if u.inner.values.length ≠ 1 then
    (u.inner.error "a single value"
      (formatInt (Int.ofNat u.inner.values.length) ++ " values") : Except Failure Unit)
  return ⟨u.inner⟩

/-- The index read `u.values[0]`, which fails on an empty slice. -/
def unwrapperInner.first (u : unwrapperInner) : Except Failure Value :=
  match u.values with
  | [] => .error .indexOutOfRange
  | v :: _ => .ok v

/-- The method `ValueUnwrapper.Any()`. -/
def ValueUnwrapper.Any (u : ValueUnwrapper) : Except Failure Value :=
  u.inner.first

/-! ## The integer parser `strconv.Atoi` of the standard library -/

/-- The width of the host `int`: `strconv.IntSize` is 32 or 64. -/
inductive WordSize where
  | w32
  | w64
  deriving DecidableEq, Repr

/-- The constant `strconv.IntSize`, in bits. -/
def IntSize : WordSize → Nat
  | .w32 => 32
  | .w64 => 64

/-- The two errors of the parser, `strconv.ErrSyntax` and `strconv.ErrRange`. -/
inductive NumError where
  | ErrSyntax
  | ErrRange
  deriving DecidableEq, Repr

/-- The digit value that `ParseUint` assigns to a byte: decimal digits, then
letters of either case from ten upwards; `none` for any other byte. -/
def digitVal (c : Char) : Option Nat :=
  let d := c.toNat
  if '0'.toNat ≤ d ∧ d ≤ '9'.toNat then some (d - '0'.toNat)
  else if 'a'.toNat ≤ d ∧ d ≤ 'z'.toNat then some (d - 'a'.toNat + 10)
  else if 'A'.toNat ≤ d ∧ d ≤ 'Z'.toNat then some (d - 'A'.toNat + 10)
  else none

/-- The largest `uint64`, `1<<64 - 1`. -/
def maxUint64 : Nat := 2 ^ 64 - 1

/-- The loop of `ParseUint(s, 10, bitSize)` over the remaining bytes, with the
accumulator `n`.  It returns the pair `(n, err)` as the Go function does. -/
def parseUintLoop (bitSize : Nat) : List Char → Nat → Nat × Option NumError
  | [], n => (n, none)
  | c :: cs, n =>
    match digitVal c with
    | none => (0, some .ErrSyntax)
    | some v =>
      if v ≥ 10 then (0, some .ErrSyntax)
      else if n ≥ maxUint64 / 10 + 1 then (maxUint64, some .ErrRange)
      else
        let n10 := (n * 10) % 2 ^ 64
        let n1 := (n10 + v) % 2 ^ 64
        if n1 < n10 ∨ n1 > 2 ^ bitSize - 1 then (maxUint64, some .ErrRange)
        else parseUintLoop bitSize cs n1

/-- The function `strconv.ParseUint(s, 10, bitSize)` for a non-zero `bitSize`. -/
def ParseUint (s : List Char) (bitSize : Nat) : Nat × Option NumError :=
  match s with
  | [] => (0, some .ErrSyntax)
  | _ => parseUintLoop bitSize s 0

/-- The conversion `int64(un)` of a `uint64`. -/
def toInt64 (un : Nat) : Int :=
  if un % 2 ^ 64 < 2 ^ 63 then Int.ofNat (un % 2 ^ 64) else Int.ofNat (un % 2 ^ 64) - 2 ^ 64

/-- The negation `-n` of an `int64`, which wraps at the smallest value. -/
def negInt64 (n : Int) : Int :=
  if n = -(2 ^ 63) then n else -n

/-- The function `strconv.ParseInt(s, 10, bitSize)` for a non-zero `bitSize`:
the sign is picked off, the rest is parsed unsigned and range-checked. -/
def ParseInt (s : List Char) (bitSize : Nat) : Int × Option NumError :=
  match s with
  | [] => (0, some .ErrSyntax)
  | c :: cs =>
    let (neg, rest) :=
      if c = '+' then (false, cs) else if c = '-' then (true, cs) else (false, c :: cs)
    match ParseUint rest bitSize with
    | (_, some .ErrSyntax) => (0, some .ErrSyntax)
    | (un, _) =>
      let cutoff := 2 ^ (bitSize - 1)
      if neg = false ∧ un ≥ cutoff then (Int.ofNat (cutoff - 1), some .ErrRange)
      else if neg = true ∧ un > cutoff then (-(Int.ofNat cutoff), some .ErrRange)
      else
        let n := toInt64 un
        (if neg then negInt64 n else n, none)

/-- The conversion `int(i64)` on a host whose `int` has `bits` bits. -/
def toInt (bits : Nat) (i : Int) : Int :=
  (i + 2 ^ (bits - 1)) % 2 ^ bits - 2 ^ (bits - 1)

/-- The function `strconv.Atoi(s)`: `ParseInt(s, 10, 0)` converted to `int`,
where a `bitSize` of zero stands for `IntSize`. -/
def Atoi (w : WordSize) (s : String) : Int × Option NumError :=
  let r := ParseInt s.toList (IntSize w)
  (toInt (IntSize w) r.1, r.2)

/-! ## The scalar operations -/

/-- The method `ValueUnwrapper.String()`. -/
def ValueUnwrapper.String (u : ValueUnwrapper) : Except Failure String := do
  let v ← u.inner.first
  let (s, ok) := v.assertString
  if ok = false then
    (u.inner.error "string" v.Kind : Except Failure Unit)
  return s

/-- The method `ValueUnwrapper.Int()`. -/
def ValueUnwrapper.Int (w : WordSize) (u : ValueUnwrapper) : Except Failure ℤ := do
  let s ← u.String
  let (i, err) := Atoi w s
  if err ≠ none then
    (u.inner.error "integer" s : Except Failure Unit)
  return i

/-- The method `ValueUnwrapper.NonNegativeInt()`. -/
def ValueUnwrapper.NonNegativeInt (w : WordSize) (u : ValueUnwrapper) :
    Except Failure ℤ := do
  let i ← u.Int w
  if i < 0 then
    (u.inner.error "non-negative int" (formatInt i) : Except Failure Unit)
  return i

/-- The method `ValueUnwrapper.FdOrClose()`. -/
def ValueUnwrapper.FdOrClose (w : WordSize) (u : ValueUnwrapper) :
    Except Failure ℤ := do
  let s ← u.String
  if s = "-" then
    return -1
  u.NonNegativeInt w

/-- The method `ValueUnwrapper.Callable()`. -/
def ValueUnwrapper.Callable (u : ValueUnwrapper) : Except Failure Value := do
  let v ← u.inner.first
  if v.callable = false then
    (u.inner.error "callable" v.Kind : Except Failure Unit)
  return v

/-- The method `ValueUnwrapper.Iterable()`. -/
def ValueUnwrapper.Iterable (u : ValueUnwrapper) : Except Failure Value := do
  let v ← u.inner.first
  if v.iterable = false then
    (u.inner.error "iterable" v.Kind : Except Failure Unit)
  return v

/-! ## The grammar and the value of a decimal numeral, as the specification words them -/

/-- The character class `[0-9]`. -/
def isDecDigit (c : Char) : Bool :=
  decide ('0'.toNat ≤ c.toNat ∧ c.toNat ≤ '9'.toNat)

/-- The number that a run of decimal digits denotes, continuing from `n`. -/
def digitsValueFrom (ds : List Char) (n : Nat) : Nat :=
  ds.foldl (fun acc c => acc * 10 + (c.toNat - '0'.toNat)) n

/-- The number that a run of decimal digits denotes. -/
def digitsValue (ds : List Char) : Nat :=
  digitsValueFrom ds 0

/-- The digits of a numeral: what follows the optional sign. -/
def numeralDigits (s : String) : List Char :=
  match s.toList with
  | [] => []
  | c :: cs => if c = '+' ∨ c = '-' then cs else c :: cs

/-- Whether the string matches `^[+-]?[0-9]+$`. -/
def matchesIntRegex (s : String) : Bool :=
  !(numeralDigits s).isEmpty && (numeralDigits s).all isDecDigit

/-- The integer that a numeral denotes mathematically. -/
def intValue (s : String) : ℤ :=
  if s.toList.head? = some '-' then -(Int.ofNat (digitsValue (numeralDigits s)))
  else Int.ofNat (digitsValue (numeralDigits s))

/-- Whether an integer fits the host `int`. -/
def fitsInt (w : WordSize) (i : ℤ) : Bool :=
  decide (-(2 ^ (IntSize w - 1)) ≤ i ∧ i ≤ 2 ^ (IntSize w - 1) - 1)

/-! ## Vocabulary of the statements -/

/-- The failure that carries the message `"<desc> must be <want>; got <got>"`
at the span `(b, e)`. -/
def mismatch (desc : String) (b e : Int) (want got : String) : Failure :=
  .diagnostic ⟨b, e, desc ++ " must be " ++ want ++ "; got " ++ got⟩

/-- The scalar operations of `ValueUnwrapper`, by name. -/
inductive ScalarOp where
  | Any
  | String
  | Int
  | NonNegativeInt
  | FdOrClose
  | Callable
  | Iterable
  deriving DecidableEq, Repr

/-- What a scalar operation returns: a value, a string or an integer. -/
inductive Result where
  | value (v : Value)
  | string (s : String)
  | int (i : Int)
  deriving DecidableEq, Repr

/-- Running the named scalar operation on a scalar unwrapper. -/
def ScalarOp.run (w : WordSize) : ScalarOp → ValueUnwrapper → Except Failure Result
  | .Any, u => Result.value <$> u.Any
  | .String, u => Result.string <$> u.String
  | .Int, u => Result.int <$> u.Int w
  | .NonNegativeInt, u => Result.int <$> u.NonNegativeInt w
  | .FdOrClose, u => Result.int <$> u.FdOrClose w
  | .Callable, u => Result.value <$> u.Callable
  | .Iterable, u => Result.value <$> u.Iterable

/-- The three kinds of outcome: a result, the failed index read, or a mismatch
diagnostic built from the description and span of the unwrapper. -/
def Outcome {α : Type} (u : unwrapperInner) (r : Except Failure α) : Prop :=
  (∃ a, r = .ok a) ∨ (u.values = [] ∧ r = .error .indexOutOfRange)
    ∨ ∃ want got, r = .error (mismatch u.description u.begin_ u.end_ want got)

/-! ## Executing a producer of values -/

/-- Modelled from the spec: the type `ValuesOp` is declared outside this file.
It exposes its own span `Begin`, `End` and the method `Exec`, which yields a
sequence of values from the evaluation context. -/
structure ValuesOp where
  /-- Start of the span of the operation. -/
  Begin : Int
  /-- End of the span of the operation. -/
  End : Int
  /-- The method `Exec(ctx)`. -/
  Exec : EvalCtx → List Value

/-- The method `(*EvalCtx).ExecAndUnwrap(desc, op)`. -/
def EvalCtx.ExecAndUnwrap (ctx : EvalCtx) (desc : String) (op : ValuesOp) : ValuesUnwrapper :=
  ctx.Unwrap desc op.Begin op.End (op.Exec ctx)

/-! ## The methods as programs over the cell behind the receiver

Both unwrapper types embed the pointer `*unwrapperInner`.  Here a method body
is a program that runs on the cell this pointer refers to and leaves a cell
behind, whether it returns or not.  The programs below follow the method
bodies statement by statement; the bodies contain reads of the cell and no
assignment to it. -/

/-- A method body run on the cell behind its receiver: the outcome and the cell
afterwards. -/
def Method (α : Type) : Type :=
  unwrapperInner → Except Failure α × unwrapperInner

/-- Returning a result. -/
def Method.ret {α : Type} (a : α) : Method α :=
  fun σ => (.ok a, σ)

/-- Sequencing: what follows runs on the cell left behind, and does not run
after a call that did not return. -/
def Method.seq {α β : Type} (m : Method α) (f : α → Method β) : Method β :=
  fun σ =>
    match m σ with
    | (.ok a, σ1) => f a σ1
    | (.error x, σ1) => (.error x, σ1)

instance : Monad Method where
  pure := Method.ret
  bind := Method.seq

/-- Reading the cell through the pointer. -/
def Method.read : Method unwrapperInner :=
  fun σ => (.ok σ, σ)

/-- Writing the cell through the pointer. -/
def Method.write (σ1 : unwrapperInner) : Method Unit :=
  fun _ => (.ok (), σ1)

/-- A call into code that does not hold the pointer. -/
def Method.call {α : Type} (r : Except Failure α) : Method α :=
  fun σ => (r, σ)

/-- The body of `(*unwrapperInner).error`. -/
def Method.error {α : Type} (want got : String) : Method α := do
  let u ← Method.read
  Method.call (u.ctx.errorpf u.begin_ u.end_
    (u.description ++ " must be " ++ want ++ "; got " ++ got))

/-- The index read `u.values[0]`. -/
def Method.first : Method Value := do
  let u ← Method.read
  match u.values with
  | [] => Method.call (.error .indexOutOfRange)
  | v :: _ => return v

/-- The body of `ValuesUnwrapper.One()`; the unwrapper returned holds the same
pointer, so it is given by the cell at the moment of the return. -/
def Method.One : Method ValueUnwrapper := do
  let u ← Method.read
  if u.values.length ≠ 1 then
    (Method.error "a single value" (formatInt (Int.ofNat u.values.length) ++ " values") :
      Method Unit)
  let u1 ← Method.read
  return ⟨u1⟩

/-- The body of `ValueUnwrapper.Any()`. -/
def Method.Any : Method Value :=
  Method.first

/-- The body of `ValueUnwrapper.String()`. -/
def Method.String : Method String := do
  let v ← Method.first
  let (s, ok) := v.assertString
  if ok = false then
    let v1 ← Method.first
    (Method.error "string" v1.Kind : Method Unit)
  return s

/-- The body of `ValueUnwrapper.Int()`. -/
def Method.Int (w : WordSize) : Method ℤ := do
  let s ← Method.String
  let (i, err) := Atoi w s
  if err ≠ none then
    (Method.error "integer" s : Method Unit)
  return i

/-- The body of `ValueUnwrapper.NonNegativeInt()`. -/
def Method.NonNegativeInt (w : WordSize) : Method ℤ := do
  let i ← Method.Int w
  if i < 0 then
    (Method.error "non-negative int" (formatInt i) : Method Unit)
  return i

/-- The body of `ValueUnwrapper.FdOrClose()`. -/
def Method.FdOrClose (w : WordSize) : Method ℤ := do
  let s ← Method.String
  if s = "-" then
    return -1
  Method.NonNegativeInt w

/-- The body of `ValueUnwrapper.Callable()`. -/
def Method.Callable : Method Value := do
  let v ← Method.first
  if v.callable = false then
    let v1 ← Method.first
    (Method.error "callable" v1.Kind : Method Unit)
  return v

/-- The body of `ValueUnwrapper.Iterable()`. -/
def Method.Iterable : Method Value := do
  let v ← Method.first
  if v.iterable = false then
    let v1 ← Method.first
    (Method.error "iterable" v1.Kind : Method Unit)
  return v

/-- The body of the named scalar operation. -/
def ScalarOp.body (w : WordSize) : ScalarOp → Method Result
  | .Any => Result.value <$> Method.Any
  | .String => Result.string <$> Method.String
  | .Int => Result.int <$> Method.Int w
  | .NonNegativeInt => Result.int <$> Method.NonNegativeInt w
  | .FdOrClose => Result.int <$> Method.FdOrClose w
  | .Callable => Result.value <$> Method.Callable
  | .Iterable => Result.value <$> Method.Iterable

/-! ## Facts about the parser -/

theorem digitVal_of_isDecDigit {c : Char} (h : isDecDigit c = true) :
    digitVal c = some (c.toNat - '0'.toNat) ∧ c.toNat - '0'.toNat < 10 := by
  simp only [isDecDigit, decide_eq_true_eq] at h
  simp only [digitVal]
  rw [if_pos h]
  simp only [Char.reduceToNat] at h ⊢
  exact ⟨trivial, by omega⟩

theorem digitVal_of_not_isDecDigit {c : Char} (h : isDecDigit c = false) :
    digitVal c = none ∨ ∃ v, digitVal c = some v ∧ 10 ≤ v := by
  simp only [isDecDigit, decide_eq_false_iff_not] at h
  simp only [digitVal]
  rw [if_neg h]
  split_ifs
  · exact Or.inr ⟨_, rfl, by omega⟩
  · exact Or.inr ⟨_, rfl, by omega⟩
  · exact Or.inl rfl

theorem le_digitsValueFrom (ds : List Char) (n : Nat) : n ≤ digitsValueFrom ds n := by
  induction ds generalizing n with
  | nil => simp [digitsValueFrom]
  | cons c cs ih =>
    have h := ih (n * 10 + (c.toNat - '0'.toNat))
    simp only [digitsValueFrom, List.foldl_cons] at h ⊢
    omega

theorem parseUintLoop_cons_digit (bits : Nat) (c : Char) (cs : List Char) (n : Nat)
    (hc : isDecDigit c = true) :
    parseUintLoop bits (c :: cs) n =
      if n ≥ 1844674407370955162 then (maxUint64, some .ErrRange)
      else if 18446744073709551616 ≤ n * 10 + (c.toNat - '0'.toNat)
          ∨ n * 10 + (c.toNat - '0'.toNat) > 2 ^ bits - 1 then (maxUint64, some .ErrRange)
      else parseUintLoop bits cs (n * 10 + (c.toNat - '0'.toNat)) := by
  obtain ⟨hv, hlt⟩ := digitVal_of_isDecDigit hc
  rw [parseUintLoop, hv]
  simp only [maxUint64, Nat.reducePow, Nat.reduceSub, Nat.reduceDiv, Nat.reduceAdd]
  generalize c.toNat - '0'.toNat = v at hlt
  rw [if_neg (by omega)]
  by_cases hn : n ≥ 1844674407370955162
  · rw [if_pos hn, if_pos hn]
  · rw [if_neg hn, if_neg hn]
    have h10 : n * 10 % 18446744073709551616 = n * 10 := Nat.mod_eq_of_lt (by omega)
    rw [h10]
    by_cases hw : 18446744073709551616 ≤ n * 10 + v
    · have hm : (n * 10 + v) % 18446744073709551616 = n * 10 + v - 18446744073709551616 := by
        omega
      rw [if_pos (Or.inl hw), if_pos (Or.inl (by omega))]
    · have hm : (n * 10 + v) % 18446744073709551616 = n * 10 + v :=
        Nat.mod_eq_of_lt (by omega)
      rw [hm]
      by_cases hr : n * 10 + v > 2 ^ bits - 1
      · rw [if_pos (Or.inr hr), if_pos (Or.inr hr)]
      · rw [if_neg (by omega), if_neg (by omega)]

theorem parseUintLoop_cons_not_digit (bits : Nat) (c : Char) (cs : List Char) (n : Nat)
    (hc : isDecDigit c = false) :
    parseUintLoop bits (c :: cs) n = (0, some .ErrSyntax) := by
  rcases digitVal_of_not_isDecDigit hc with h | ⟨v, h, hv⟩
  · rw [parseUintLoop, h]
  · rw [parseUintLoop, h]
    simp only [ge_iff_le]
    rw [if_pos hv]

theorem digitsValueFrom_cons (c : Char) (cs : List Char) (n : Nat) :
    digitsValueFrom (c :: cs) n = digitsValueFrom cs (n * 10 + (c.toNat - '0'.toNat)) := by
  simp [digitsValueFrom]

/-- The loop returns the denoted number when every byte is a decimal digit and
the number does not exceed the largest value of the width. -/
theorem parseUintLoop_ok (bits : Nat) (hb : 2 ^ bits - 1 < 2 ^ 64) (ds : List Char) (n : Nat)
    (hd : ds.all isDecDigit = true) (hv : digitsValueFrom ds n ≤ 2 ^ bits - 1) :
    parseUintLoop bits ds n = (digitsValueFrom ds n, none) := by
  induction ds generalizing n with
  | nil => simp [parseUintLoop, digitsValueFrom]
  | cons c cs ih =>
    simp only [List.all_cons, Bool.and_eq_true] at hd
    rw [digitsValueFrom_cons] at hv ⊢
    have hle := le_digitsValueFrom cs (n * 10 + (c.toNat - '0'.toNat))
    simp only [Nat.reducePow] at hb
    rw [parseUintLoop_cons_digit bits c cs n hd.1, if_neg (by omega), if_neg (by omega)]
    exact ih _ hd.2 hv

/-- The loop fails, with one of its two error results, when some byte is not a
decimal digit or the denoted number exceeds the largest value of the width. -/
theorem parseUintLoop_err (bits : Nat) (ds : List Char) (n : Nat)
    (h : ds.all isDecDigit = false ∨ 2 ^ bits - 1 < digitsValueFrom ds n)
    (hn : n ≤ 2 ^ bits - 1) :
    parseUintLoop bits ds n = (0, some .ErrSyntax)
      ∨ parseUintLoop bits ds n = (maxUint64, some .ErrRange) := by
  induction ds generalizing n with
  | nil =>
    simp only [List.all_nil, digitsValueFrom, List.foldl_nil] at h
    rcases h with h | h
    · exact absurd h (by decide)
    · omega
  | cons c cs ih =>
    cases hc : isDecDigit c with
    | false => exact Or.inl (parseUintLoop_cons_not_digit bits c cs n hc)
    | true =>
      rw [parseUintLoop_cons_digit bits c cs n hc]
      rw [digitsValueFrom_cons] at h
      simp only [List.all_cons, hc, Bool.true_and] at h
      split_ifs with h1 h2
      · exact Or.inr rfl
      · exact Or.inr rfl
      · exact ih _ h (by omega)

theorem ParseUint_ok (bits : Nat) (hb : 2 ^ bits - 1 < 2 ^ 64) (ds : List Char)
    (hne : ds.isEmpty = false)
    (hd : ds.all isDecDigit = true) (hv : digitsValue ds ≤ 2 ^ bits - 1) :
    ParseUint ds bits = (digitsValue ds, none) := by
  cases ds with
  | nil => simp at hne
  | cons c cs => exact parseUintLoop_ok bits hb _ 0 hd hv

theorem ParseUint_err (bits : Nat) (ds : List Char)
    (h : ds.isEmpty = true ∨ ds.all isDecDigit = false ∨ 2 ^ bits - 1 < digitsValue ds) :
    ParseUint ds bits = (0, some .ErrSyntax)
      ∨ ParseUint ds bits = (maxUint64, some .ErrRange) := by
  cases ds with
  | nil => exact Or.inl rfl
  | cons c cs =>
    simp only [List.isEmpty_cons, Bool.false_eq_true, false_or] at h
    exact parseUintLoop_err bits _ 0 h (Nat.zero_le _)

/-- The sign and the digits that `ParseInt` separates. -/
theorem ParseInt_of_ParseUint (c : Char) (cs : List Char) (bits un : Nat)
    (e : Option NumError)
    (h : ParseUint (if c = '+' ∨ c = '-' then cs else c :: cs) bits = (un, e)) :
    ParseInt (c :: cs) bits =
      if e = some .ErrSyntax then (0, some .ErrSyntax)
      else if decide (c = '-') = false ∧ un ≥ 2 ^ (bits - 1) then
        (Int.ofNat (2 ^ (bits - 1) - 1), some .ErrRange)
      else if decide (c = '-') = true ∧ un > 2 ^ (bits - 1) then
        (-(Int.ofNat (2 ^ (bits - 1))), some .ErrRange)
      else (if decide (c = '-') then negInt64 (toInt64 un) else toInt64 un, none) := by
  unfold ParseInt
  by_cases hp : c = '+'
  · subst hp
    simp only [true_or, if_true] at h
    simp only [if_true, h]
    rcases e with _ | _ | _ <;> simp
  · by_cases hm : c = '-'
    · subst hm
      simp only [or_true, if_true] at h
      simp only [if_neg hp, if_true, h]
      rcases e with _ | _ | _ <;> simp
    · simp only [hp, hm, or_self, if_false] at h
      simp only [if_neg hp, if_neg hm, h]
      rcases e with _ | _ | _ <;> simp [hm]

theorem IntSize_cases (w : WordSize) : IntSize w = 32 ∨ IntSize w = 64 := by
  cases w
  · exact Or.inl rfl
  · exact Or.inr rfl

/-- On a numeral of the grammar whose value fits, `Atoi` returns the value. -/
theorem Atoi_ok (w : WordSize) (s : String) (hm : matchesIntRegex s = true)
    (hf : fitsInt w (intValue s) = true) : Atoi w s = (intValue s, none) := by
  unfold Atoi
  unfold matchesIntRegex at hm
  unfold intValue fitsInt at *
  unfold numeralDigits at *
  generalize s.toList = l at *
  cases l with
  | nil => simp at hm
  | cons c cs =>
    simp only [Bool.and_eq_true, Bool.not_eq_true', List.head?_cons, Option.some.injEq,
      decide_eq_true_eq] at hm hf ⊢
    generalize hds : (if c = '+' ∨ c = '-' then cs else c :: cs) = ds at *
    have hU : ParseUint ds (IntSize w) = (digitsValue ds, none) := by
      apply ParseUint_ok _ _ _ hm.1 hm.2
      · rcases IntSize_cases w with h | h <;> rw [h] at hf ⊢ <;>
          simp only [Nat.reduceSub, Nat.reducePow, Int.reducePow, Int.ofNat_eq_coe] at hf ⊢ <;>
          split_ifs at hf <;> omega
      · rcases IntSize_cases w with h | h <;> rw [h] <;> norm_num
    subst hds
    rw [ParseInt_of_ParseUint c cs _ _ _ hU]
    generalize digitsValue (if c = '+' ∨ c = '-' then cs else c :: cs) = v at *
    rcases IntSize_cases w with h | h <;> rw [h] at hf ⊢ <;>
      simp only [Nat.reduceSub, Nat.reducePow, Int.reducePow, Int.ofNat_eq_coe, toInt, toInt64,
        negInt64, decide_eq_true_eq, decide_eq_false_iff_not] at hf ⊢ <;>
      by_cases hc : c = '-' <;>
      simp only [hc, if_true, if_false, not_true_eq_false, not_false_eq_true, true_and,
        false_and, reduceCtorEq] at hf ⊢ <;>
      split_ifs <;> simp only [Prod.mk.injEq, and_true] <;> first | omega | contradiction

/-- On every other string `Atoi` returns an error. -/
theorem Atoi_err (w : WordSize) (s : String)
    (h : (matchesIntRegex s && fitsInt w (intValue s)) = false) : (Atoi w s).2 ≠ none := by
  unfold Atoi
  unfold matchesIntRegex intValue fitsInt at h
  unfold numeralDigits at h
  generalize s.toList = l at *
  cases l with
  | nil => simp [ParseInt]
  | cons c cs =>
    simp only [List.head?_cons, Option.some.injEq, Bool.and_eq_false_iff, Bool.not_eq_false',
      decide_eq_false_iff_not, Bool.not_eq_true'] at h ⊢
    generalize hds : (if c = '+' ∨ c = '-' then cs else c :: cs) = ds at *
    have hb : 2 ^ IntSize w - 1 < 2 ^ 64 := by
      rcases IntSize_cases w with h | h <;> rw [h] <;> norm_num
    by_cases hbad : ds.isEmpty = true ∨ ds.all isDecDigit = false
        ∨ 2 ^ IntSize w - 1 < digitsValue ds
    · rcases ParseUint_err (IntSize w) ds hbad with hU | hU
      · subst hds
        rw [ParseInt_of_ParseUint c cs _ _ _ hU]
        simp
      · subst hds
        rw [ParseInt_of_ParseUint c cs _ _ _ hU]
        rcases IntSize_cases w with h | h <;> rw [h] <;>
          by_cases hc : c = '-' <;>
          simp [hc, maxUint64]
    · simp only [not_or, Bool.not_eq_true, Bool.not_eq_false, not_lt] at hbad
      have hU := ParseUint_ok (IntSize w) hb ds hbad.1 hbad.2.1 hbad.2.2
      subst hds
      rw [ParseInt_of_ParseUint c cs _ _ _ hU]
      generalize digitsValue (if c = '+' ∨ c = '-' then cs else c :: cs) = v at *
      have h3 : ¬(-(2 ^ (IntSize w - 1)) ≤ (if c = '-' then -Int.ofNat v else Int.ofNat v)
          ∧ (if c = '-' then -Int.ofNat v else Int.ofNat v) ≤ 2 ^ (IntSize w - 1) - 1) := by
        rcases h with (h | h) | h
        · rw [hbad.1] at h; exact absurd h (by decide)
        · rw [hbad.2.1] at h; exact absurd h (by decide)
        · exact h
      rcases IntSize_cases w with h | h <;> rw [h] at h3 ⊢ <;>
        by_cases hc : c = '-' <;>
        simp only [hc, if_true, if_false, Nat.reduceSub, Nat.reducePow, Int.reducePow,
          Int.ofNat_eq_coe, decide_True, decide_False, reduceCtorEq, true_and, false_and,
          ge_iff_le, gt_iff_lt] at h3 ⊢ <;>
        split_ifs <;> first | omega | simp

/-! ## The operations, one equation each -/

theorem One_of_length_ne (u : ValuesUnwrapper) (h : u.inner.values.length ≠ 1) :
    u.One = .error (mismatch u.inner.description u.inner.begin_ u.inner.end_ "a single value"
      (formatInt (Int.ofNat u.inner.values.length) ++ " values")) := by
  simp only [ValuesUnwrapper.One, if_pos h]
  rfl

theorem One_of_length_eq (u : ValuesUnwrapper) (h : u.inner.values.length = 1) :
    u.One = .ok ⟨u.inner⟩ := by
  simp only [ValuesUnwrapper.One, h, ne_eq, not_true_eq_false, if_false]
  rfl

theorem first_of_cons (u : unwrapperInner) (v : Value) (rest : List Value)
    (h : u.values = v :: rest) : u.first = .ok v := by
  simp only [unwrapperInner.first, h]

theorem first_of_nil (u : unwrapperInner) (h : u.values = []) :
    u.first = .error .indexOutOfRange := by
  simp only [unwrapperInner.first, h]

theorem String_of_some (u : ValueUnwrapper) (v : Value) (s : String)
    (h : u.inner.first = .ok v) (hs : v.str = some s) : u.String = .ok s := by
  simp only [ValueUnwrapper.String, h, bind, Except.bind, Value.assertString, hs]
  rfl

theorem String_of_none (u : ValueUnwrapper) (v : Value)
    (h : u.inner.first = .ok v) (hs : v.str = none) :
    u.String = .error (mismatch u.inner.description u.inner.begin_ u.inner.end_ "string"
      v.Kind) := by
  simp only [ValueUnwrapper.String, h, bind, Except.bind, Value.assertString, hs]
  rfl

theorem String_of_first_error (u : ValueUnwrapper) (f : Failure) (h : u.inner.first = .error f) :
    u.String = .error f := by
  simp only [ValueUnwrapper.String, h]
  rfl

theorem Int_of_String_error (w : WordSize) (u : ValueUnwrapper) (f : Failure)
    (h : u.String = .error f) : u.Int w = .error f := by
  simp only [ValueUnwrapper.Int, h]
  rfl

theorem Int_of_String_ok (w : WordSize) (u : ValueUnwrapper) (s : String)
    (h : u.String = .ok s) :
    u.Int w = if (Atoi w s).2 ≠ none then
        .error (mismatch u.inner.description u.inner.begin_ u.inner.end_ "integer" s)
      else .ok (Atoi w s).1 := by
  simp only [ValueUnwrapper.Int, h, bind, Except.bind, pure, Except.pure,
    unwrapperInner.error, EvalCtx.errorpf, mismatch]

theorem NonNegativeInt_of_Int_error (w : WordSize) (u : ValueUnwrapper) (f : Failure)
    (h : u.Int w = .error f) : u.NonNegativeInt w = .error f := by
  simp only [ValueUnwrapper.NonNegativeInt, h]
  rfl

theorem NonNegativeInt_of_Int_ok (w : WordSize) (u : ValueUnwrapper) (i : ℤ)
    (h : u.Int w = .ok i) :
    u.NonNegativeInt w = if i < 0 then
        .error (mismatch u.inner.description u.inner.begin_ u.inner.end_ "non-negative int"
          (formatInt i))
      else .ok i := by
  simp only [ValueUnwrapper.NonNegativeInt, h, bind, Except.bind, pure, Except.pure,
    unwrapperInner.error, EvalCtx.errorpf, mismatch]

theorem FdOrClose_of_String_error (w : WordSize) (u : ValueUnwrapper) (f : Failure)
    (h : u.String = .error f) : u.FdOrClose w = .error f := by
  simp only [ValueUnwrapper.FdOrClose, h]
  rfl

theorem FdOrClose_of_String_ok (w : WordSize) (u : ValueUnwrapper) (s : String)
    (h : u.String = .ok s) :
    u.FdOrClose w = if s = "-" then .ok (-1) else u.NonNegativeInt w := by
  simp only [ValueUnwrapper.FdOrClose, h, bind, Except.bind, pure, Except.pure,
    unwrapperInner.error, EvalCtx.errorpf, mismatch]

theorem Callable_of_first (u : ValueUnwrapper) (v : Value) (h : u.inner.first = .ok v) :
    u.Callable = if v.callable = false then
        .error (mismatch u.inner.description u.inner.begin_ u.inner.end_ "callable" v.Kind)
      else .ok v := by
  simp only [ValueUnwrapper.Callable, h, bind, Except.bind, pure, Except.pure,
    unwrapperInner.error, EvalCtx.errorpf, mismatch]

theorem Iterable_of_first (u : ValueUnwrapper) (v : Value) (h : u.inner.first = .ok v) :
    u.Iterable = if v.iterable = false then
        .error (mismatch u.inner.description u.inner.begin_ u.inner.end_ "iterable" v.Kind)
      else .ok v := by
  simp only [ValueUnwrapper.Iterable, h, bind, Except.bind, pure, Except.pure,
    unwrapperInner.error, EvalCtx.errorpf, mismatch]

theorem Callable_of_first_error (u : ValueUnwrapper) (f : Failure)
    (h : u.inner.first = .error f) : u.Callable = .error f := by
  simp only [ValueUnwrapper.Callable, h]
  rfl

theorem Iterable_of_first_error (u : ValueUnwrapper) (f : Failure)
    (h : u.inner.first = .error f) : u.Iterable = .error f := by
  simp only [ValueUnwrapper.Iterable, h]
  rfl

/-! ## The outcomes of the scalar operations -/

theorem first_cases (u : unwrapperInner) :
    (u.values = [] ∧ u.first = .error .indexOutOfRange)
      ∨ ∃ v rest, u.values = v :: rest ∧ u.first = .ok v := by
  cases h : u.values with
  | nil => exact Or.inl ⟨rfl, first_of_nil u h⟩
  | cons v rest => exact Or.inr ⟨v, rest, rfl, first_of_cons u v rest h⟩

theorem String_outcome (u : ValueUnwrapper) : Outcome u.inner u.String := by
  rcases first_cases u.inner with ⟨h0, h⟩ | ⟨v, rest, -, h⟩
  · exact Or.inr (Or.inl ⟨h0, String_of_first_error u _ h⟩)
  · cases hs : v.str with
    | none => exact Or.inr (Or.inr ⟨_, _, String_of_none u v h hs⟩)
    | some s => exact Or.inl ⟨s, String_of_some u v s h hs⟩

theorem Int_outcome (w : WordSize) (u : ValueUnwrapper) : Outcome u.inner (u.Int w) := by
  rcases String_outcome u with ⟨s, h⟩ | ⟨h0, h⟩ | ⟨want, got, h⟩
  · rw [Int_of_String_ok w u s h]
    split_ifs
    · exact Or.inr (Or.inr ⟨_, _, rfl⟩)
    · exact Or.inl ⟨_, rfl⟩
  · exact Or.inr (Or.inl ⟨h0, Int_of_String_error w u _ h⟩)
  · exact Or.inr (Or.inr ⟨want, got, Int_of_String_error w u _ h⟩)

theorem NonNegativeInt_outcome (w : WordSize) (u : ValueUnwrapper) :
    Outcome u.inner (u.NonNegativeInt w) := by
  rcases Int_outcome w u with ⟨i, h⟩ | ⟨h0, h⟩ | ⟨want, got, h⟩
  · rw [NonNegativeInt_of_Int_ok w u i h]
    split_ifs
    · exact Or.inr (Or.inr ⟨_, _, rfl⟩)
    · exact Or.inl ⟨_, rfl⟩
  · exact Or.inr (Or.inl ⟨h0, NonNegativeInt_of_Int_error w u _ h⟩)
  · exact Or.inr (Or.inr ⟨want, got, NonNegativeInt_of_Int_error w u _ h⟩)

theorem FdOrClose_outcome (w : WordSize) (u : ValueUnwrapper) :
    Outcome u.inner (u.FdOrClose w) := by
  rcases String_outcome u with ⟨s, h⟩ | ⟨h0, h⟩ | ⟨want, got, h⟩
  · rw [FdOrClose_of_String_ok w u s h]
    split_ifs
    · exact Or.inl ⟨_, rfl⟩
    · exact NonNegativeInt_outcome w u
  · exact Or.inr (Or.inl ⟨h0, FdOrClose_of_String_error w u _ h⟩)
  · exact Or.inr (Or.inr ⟨want, got, FdOrClose_of_String_error w u _ h⟩)

theorem Callable_outcome (u : ValueUnwrapper) : Outcome u.inner u.Callable := by
  rcases first_cases u.inner with ⟨h0, h⟩ | ⟨v, rest, -, h⟩
  · exact Or.inr (Or.inl ⟨h0, Callable_of_first_error u _ h⟩)
  · rw [Callable_of_first u v h]
    split_ifs
    · exact Or.inr (Or.inr ⟨_, _, rfl⟩)
    · exact Or.inl ⟨_, rfl⟩

theorem Iterable_outcome (u : ValueUnwrapper) : Outcome u.inner u.Iterable := by
  rcases first_cases u.inner with ⟨h0, h⟩ | ⟨v, rest, -, h⟩
  · exact Or.inr (Or.inl ⟨h0, Iterable_of_first_error u _ h⟩)
  · rw [Iterable_of_first u v h]
    split_ifs
    · exact Or.inr (Or.inr ⟨_, _, rfl⟩)
    · exact Or.inl ⟨_, rfl⟩

theorem Any_outcome (u : ValueUnwrapper) : Outcome u.inner u.Any := by
  rcases first_cases u.inner with ⟨h0, h⟩ | ⟨v, rest, -, h⟩
  · exact Or.inr (Or.inl ⟨h0, h⟩)
  · exact Or.inl ⟨v, h⟩

theorem Outcome_map {α β : Type} (f : α → β) (u : unwrapperInner) (r : Except Failure α)
    (h : Outcome u r) : Outcome u (f <$> r) := by
  rcases h with ⟨a, rfl⟩ | ⟨h0, rfl⟩ | ⟨want, got, rfl⟩
  · exact Or.inl ⟨f a, rfl⟩
  · exact Or.inr (Or.inl ⟨h0, rfl⟩)
  · exact Or.inr (Or.inr ⟨want, got, rfl⟩)

/-- Every scalar operation ends in one of the three kinds of outcome. -/
theorem run_outcome (w : WordSize) (op : ScalarOp) (u : ValueUnwrapper) :
    Outcome u.inner (op.run w u) := by
  cases op
  · exact Outcome_map _ _ _ (Any_outcome u)
  · exact Outcome_map _ _ _ (String_outcome u)
  · exact Outcome_map _ _ _ (Int_outcome w u)
  · exact Outcome_map _ _ _ (NonNegativeInt_outcome w u)
  · exact Outcome_map _ _ _ (FdOrClose_outcome w u)
  · exact Outcome_map _ _ _ (Callable_outcome u)
  · exact Outcome_map _ _ _ (Iterable_outcome u)

theorem mismatch_shape (desc : String) (b e : ℤ) (want got : String) (d : Diagnostic)
    (h : mismatch desc b e want got = .diagnostic d) :
    d.begin_ = b ∧ d.end_ = e
      ∧ ∃ expected actual, d.message = desc ++ " must be " ++ expected ++ "; got " ++ actual := by
  simp only [mismatch, Failure.diagnostic.injEq] at h
  subst h
  exact ⟨rfl, rfl, want, got, rfl⟩

theorem error_bind {α β : Type} (f : Failure) (g : α → Except Failure β) :
    ((Except.error f : Except Failure α) >>= g) = .error f :=
  rfl

theorem ok_bind {α β : Type} (a : α) (g : α → Except Failure β) :
    ((Except.ok a : Except Failure α) >>= g) = g a :=
  rfl

theorem One_outcome (u : ValuesUnwrapper) :
    (u.inner.values.length = 1 ∧ u.One = .ok ⟨u.inner⟩)
      ∨ (u.inner.values.length ≠ 1 ∧ u.One = .error (mismatch u.inner.description
          u.inner.begin_ u.inner.end_ "a single value"
          (formatInt (Int.ofNat u.inner.values.length) ++ " values"))) := by
  by_cases h : u.inner.values.length = 1
  · exact Or.inl ⟨h, One_of_length_eq u h⟩
  · exact Or.inr ⟨h, One_of_length_ne u h⟩

/-! ## The verb `%d` and the parser are inverse to each other -/

theorem Atoi_eq_none_iff (w : WordSize) (s : String) :
    (Atoi w s).2 = none ↔ (matchesIntRegex s = true ∧ fitsInt w (intValue s) = true) := by
  constructor
  · intro h
    by_contra hn
    refine Atoi_err w s ?_ h
    simp only [Bool.and_eq_false_iff]
    by_cases hm : matchesIntRegex s = true
    · right
      simpa using fun hf => hn ⟨hm, hf⟩
    · left
      simpa using hm
  · rintro ⟨hm, hf⟩
    rw [Atoi_ok w s hm hf]

theorem Atoi_value_of_none (w : WordSize) (s : String) (h : (Atoi w s).2 = none) :
    (Atoi w s).1 = intValue s ∧ fitsInt w (intValue s) = true := by
  obtain ⟨hm, hf⟩ := (Atoi_eq_none_iff w s).mp h
  rw [Atoi_ok w s hm hf]
  exact ⟨rfl, hf⟩

theorem digitChar_toNat (m : Nat) (hm : m < 10) : (Nat.digitChar m).toNat = 48 + m := by
  interval_cases m <;> rfl

theorem digitsValueFrom_append (xs ys : List Char) (n : Nat) :
    digitsValueFrom (xs ++ ys) n = digitsValueFrom ys (digitsValueFrom xs n) := by
  simp [digitsValueFrom, List.foldl_append]

theorem toDigitsCore_acc (fuel : Nat) : ∀ (n : Nat) (acc : List Char),
    Nat.toDigitsCore 10 fuel n acc = Nat.toDigitsCore 10 fuel n [] ++ acc := by
  induction fuel with
  | zero => intro n acc; simp [Nat.toDigitsCore]
  | succ k ih =>
    intro n acc
    simp only [Nat.toDigitsCore]
    by_cases h : n / 10 = 0
    · simp [h]
    · rw [if_neg h, if_neg h, ih (n / 10) (Nat.digitChar (n % 10) :: acc),
        ih (n / 10) [Nat.digitChar (n % 10)]]
      simp

theorem isDecDigit_digitChar (m : Nat) (hm : m < 10) : isDecDigit (Nat.digitChar m) = true := by
  simp only [isDecDigit, decide_eq_true_eq, digitChar_toNat m hm, Char.reduceToNat]
  omega

/-- With enough fuel the digits of `n` are a non-empty run of decimal digits
that denotes `n`. -/
theorem toDigitsCore_denotes (fuel : Nat) : ∀ n : Nat, n < fuel →
    (Nat.toDigitsCore 10 fuel n []).isEmpty = false
      ∧ (Nat.toDigitsCore 10 fuel n []).all isDecDigit = true
      ∧ digitsValue (Nat.toDigitsCore 10 fuel n []) = n := by
  induction fuel with
  | zero => intro n h; omega
  | succ k ih =>
    intro n hn
    have hd : n % 10 < 10 := Nat.mod_lt _ (by omega)
    simp only [Nat.toDigitsCore]
    by_cases h : n / 10 = 0
    · rw [if_pos h]
      refine ⟨rfl, by simp [isDecDigit_digitChar _ hd], ?_⟩
      simp only [digitsValue, digitsValueFrom, List.foldl_cons, List.foldl_nil,
        digitChar_toNat _ hd, Char.reduceToNat]
      omega
    · rw [if_neg h, toDigitsCore_acc]
      obtain ⟨h1, h2, h3⟩ := ih (n / 10) (by omega)
      refine ⟨by simp, by simp [h2, isDecDigit_digitChar _ hd], ?_⟩
      simp only [digitsValue] at h3 ⊢
      rw [digitsValueFrom_append, h3]
      simp only [digitsValueFrom, List.foldl_cons, List.foldl_nil, digitChar_toNat _ hd,
        Char.reduceToNat]
      omega

theorem repr_denotes (n : Nat) :
    (Nat.repr n).toList.isEmpty = false ∧ (Nat.repr n).toList.all isDecDigit = true
      ∧ digitsValue (Nat.repr n).toList = n :=
  toDigitsCore_denotes (n + 1) n (by omega)

theorem isDecDigit_ne_sign (c : Char) (h : isDecDigit c = true) : c ≠ '+' ∧ c ≠ '-' := by
  constructor <;> rintro rfl <;> exact absurd h (by decide)

theorem numeralDigits_of_toList (s : String) (c : Char) (cs : List Char)
    (h : s.toList = c :: cs) :
    numeralDigits s = if c = '+' ∨ c = '-' then cs else c :: cs := by
  unfold numeralDigits
  rw [h]

theorem formatInt_denotes (i : ℤ) :
    matchesIntRegex (formatInt i) = true ∧ intValue (formatInt i) = i := by
  obtain ⟨h1, h2, h3⟩ := repr_denotes i.natAbs
  by_cases hi : i < 0
  · have hl : (formatInt i).toList = '-' :: (Nat.repr i.natAbs).toList := by
      simp only [formatInt, if_pos hi]
      rfl
    have hnd : numeralDigits (formatInt i) = (Nat.repr i.natAbs).toList := by
      rw [numeralDigits_of_toList _ _ _ hl, if_pos (Or.inr rfl)]
    refine ⟨?_, ?_⟩
    · unfold matchesIntRegex
      rw [hnd, h1, h2]
      rfl
    · unfold intValue
      rw [hl, hnd, h3]
      simp only [List.head?_cons, if_true, Int.ofNat_eq_coe]
      omega
  · have hl : (formatInt i).toList = (Nat.repr i.natAbs).toList := by
      simp only [formatInt, if_neg hi]
    cases hr : (Nat.repr i.natAbs).toList with
    | nil => rw [hr] at h1; exact absurd h1 (by decide)
    | cons c cs =>
      rw [hr] at h1 h2 h3 hl
      have hc : isDecDigit c = true := by
        simp only [List.all_cons, Bool.and_eq_true] at h2
        exact h2.1
      obtain ⟨hp, hm⟩ := isDecDigit_ne_sign c hc
      have hnd : numeralDigits (formatInt i) = c :: cs := by
        rw [numeralDigits_of_toList _ _ _ hl, if_neg (by simp [hp, hm])]
      refine ⟨?_, ?_⟩
      · unfold matchesIntRegex
        rw [hnd, h2]
        rfl
      · unfold intValue
        rw [hl, hnd, h3]
        simp only [List.head?_cons, Option.some.injEq, if_neg hm, Int.ofNat_eq_coe]
        omega

/-- The parser reads the rendering of an integer of the host range back as
that integer. -/
theorem Atoi_formatInt (w : WordSize) (i : ℤ) (h : fitsInt w i = true) :
    Atoi w (formatInt i) = (i, none) := by
  obtain ⟨hm, hv⟩ := formatInt_denotes i
  have := Atoi_ok w (formatInt i) hm (by rw [hv]; exact h)
  rw [this, hv]

theorem Int_ok_inv (w : WordSize) (u : ValueUnwrapper) (i : ℤ) (h : u.Int w = .ok i) :
    ∃ s, u.String = .ok s ∧ (Atoi w s).2 = none ∧ (Atoi w s).1 = i := by
  rcases String_outcome u with ⟨s, hs⟩ | ⟨-, hs⟩ | ⟨want, got, hs⟩
  · rw [Int_of_String_ok w u s hs] at h
    by_cases he : (Atoi w s).2 ≠ none
    · rw [if_pos he] at h
      cases h
    · rw [if_neg he] at h
      exact ⟨s, hs, not_not.mp he, Except.ok.inj h⟩
  · rw [Int_of_String_error w u _ hs] at h
    cases h
  · rw [Int_of_String_error w u _ hs] at h
    cases h

theorem formatInt_eq_toString (i : ℤ) : formatInt i = toString i := by
  cases i with
  | ofNat n =>
    simp only [formatInt, Int.ofNat_eq_coe, Int.natAbs_ofNat]
    rw [if_neg (by omega)]
    rfl
  | negSucc n =>
    simp only [formatInt]
    rw [if_pos (Int.negSucc_lt_zero n)]
    rfl

/-! ## The methods leave the cell as it was -/

theorem seq_ok {α β : Type} (m : Method α) (f : α → Method β) (σ : unwrapperInner)
    (a : α) (h : m σ = (.ok a, σ)) : (m >>= f) σ = f a σ := by
  show Method.seq m f σ = _
  unfold Method.seq
  rw [h]

theorem seq_error {α β : Type} (m : Method α) (f : α → Method β) (σ : unwrapperInner)
    (x : Failure) (h : m σ = (.error x, σ)) : (m >>= f) σ = (.error x, σ) := by
  show Method.seq m f σ = _
  unfold Method.seq
  rw [h]

theorem map_cell {α β : Type} (g : α → β) (m : Method α) (σ : unwrapperInner)
    (r : Except Failure α) (h : m σ = (r, σ)) : (g <$> m) σ = (g <$> r, σ) := by
  show Method.seq m (fun a => Method.ret (g a)) σ = _
  unfold Method.seq
  rw [h]
  cases r <;> rfl

theorem error_cell {α : Type} (want got : String) (σ : unwrapperInner) :
    (Method.error want got : Method α) σ = (σ.error want got, σ) := by
  unfold Method.error
  rw [seq_ok Method.read _ σ σ rfl]
  rfl

theorem first_cell (σ : unwrapperInner) : Method.first σ = (σ.first, σ) := by
  unfold Method.first
  rw [seq_ok Method.read _ σ σ rfl]
  unfold unwrapperInner.first
  cases σ.values <;> rfl

theorem One_cell (σ : unwrapperInner) :
    Method.One σ = ((⟨σ⟩ : ValuesUnwrapper).One, σ) := by
  unfold Method.One
  rw [seq_ok Method.read _ σ σ rfl]
  by_cases h : σ.values.length ≠ 1
  · simp only [if_pos h]
    rw [One_of_length_ne ⟨σ⟩ h, seq_error _ _ σ _ (error_cell _ _ σ)]
    rfl
  · simp only [if_neg h]
    rw [One_of_length_eq ⟨σ⟩ (not_not.mp h)]
    rfl

theorem String_cell (σ : unwrapperInner) :
    Method.String σ = ((⟨σ⟩ : ValueUnwrapper).String, σ) := by
  unfold Method.String
  rcases first_cases σ with ⟨-, h⟩ | ⟨v, rest, -, h⟩
  · rw [seq_error Method.first _ σ _ ((first_cell σ).trans (by rw [h])),
      String_of_first_error ⟨σ⟩ _ h]
  · rw [seq_ok Method.first _ σ v ((first_cell σ).trans (by rw [h]))]
    cases hs : v.str with
    | none =>
      rw [String_of_none ⟨σ⟩ v h hs]
      simp only [Value.assertString, hs, if_true]
      rw [seq_ok Method.first _ σ v ((first_cell σ).trans (by rw [h])),
        seq_error _ _ σ _ (error_cell _ _ σ)]
      rfl
    | some s =>
      rw [String_of_some ⟨σ⟩ v s h hs]
      simp only [Value.assertString, hs, Bool.true_eq_false, if_false]
      rfl

theorem Int_cell (w : WordSize) (σ : unwrapperInner) :
    Method.Int w σ = ((⟨σ⟩ : ValueUnwrapper).Int w, σ) := by
  unfold Method.Int
  cases hs : (⟨σ⟩ : ValueUnwrapper).String with
  | error x =>
    rw [seq_error Method.String _ σ x ((String_cell σ).trans (by rw [hs])),
      Int_of_String_error w ⟨σ⟩ x hs]
  | ok s =>
    rw [seq_ok Method.String _ σ s ((String_cell σ).trans (by rw [hs])),
      Int_of_String_ok w ⟨σ⟩ s hs]
    by_cases he : (Atoi w s).2 ≠ none
    · simp only [if_pos he]
      rw [seq_error _ _ σ _ (error_cell _ _ σ)]
      rfl
    · simp only [if_neg he]
      rfl

theorem NonNegativeInt_cell (w : WordSize) (σ : unwrapperInner) :
    Method.NonNegativeInt w σ = ((⟨σ⟩ : ValueUnwrapper).NonNegativeInt w, σ) := by
  unfold Method.NonNegativeInt
  cases hs : (⟨σ⟩ : ValueUnwrapper).Int w with
  | error x =>
    rw [seq_error (Method.Int w) _ σ x ((Int_cell w σ).trans (by rw [hs])),
      NonNegativeInt_of_Int_error w ⟨σ⟩ x hs]
  | ok i =>
    rw [seq_ok (Method.Int w) _ σ i ((Int_cell w σ).trans (by rw [hs])),
      NonNegativeInt_of_Int_ok w ⟨σ⟩ i hs]
    by_cases he : i < 0
    · simp only [if_pos he]
      rw [seq_error _ _ σ _ (error_cell _ _ σ)]
      rfl
    · simp only [if_neg he]
      rfl

theorem FdOrClose_cell (w : WordSize) (σ : unwrapperInner) :
    Method.FdOrClose w σ = ((⟨σ⟩ : ValueUnwrapper).FdOrClose w, σ) := by
  unfold Method.FdOrClose
  cases hs : (⟨σ⟩ : ValueUnwrapper).String with
  | error x =>
    rw [seq_error Method.String _ σ x ((String_cell σ).trans (by rw [hs])),
      FdOrClose_of_String_error w ⟨σ⟩ x hs]
  | ok s =>
    rw [seq_ok Method.String _ σ s ((String_cell σ).trans (by rw [hs])),
      FdOrClose_of_String_ok w ⟨σ⟩ s hs]
    by_cases he : s = "-"
    · simp only [if_pos he]
      rfl
    · simp only [if_neg he]
      exact NonNegativeInt_cell w σ

theorem Callable_cell (σ : unwrapperInner) :
    Method.Callable σ = ((⟨σ⟩ : ValueUnwrapper).Callable, σ) := by
  unfold Method.Callable
  rcases first_cases σ with ⟨-, h⟩ | ⟨v, rest, -, h⟩
  · rw [seq_error Method.first _ σ _ ((first_cell σ).trans (by rw [h])),
      Callable_of_first_error ⟨σ⟩ _ h]
  · rw [seq_ok Method.first _ σ v ((first_cell σ).trans (by rw [h])),
      Callable_of_first ⟨σ⟩ v h]
    by_cases hc : v.callable = false
    · simp only [if_pos hc]
      rw [seq_ok Method.first _ σ v ((first_cell σ).trans (by rw [h])),
        seq_error _ _ σ _ (error_cell _ _ σ)]
      rfl
    · simp only [if_neg hc]
      rfl

theorem Iterable_cell (σ : unwrapperInner) :
    Method.Iterable σ = ((⟨σ⟩ : ValueUnwrapper).Iterable, σ) := by
  unfold Method.Iterable
  rcases first_cases σ with ⟨-, h⟩ | ⟨v, rest, -, h⟩
  · rw [seq_error Method.first _ σ _ ((first_cell σ).trans (by rw [h])),
      Iterable_of_first_error ⟨σ⟩ _ h]
  · rw [seq_ok Method.first _ σ v ((first_cell σ).trans (by rw [h])),
      Iterable_of_first ⟨σ⟩ v h]
    by_cases hc : v.iterable = false
    · simp only [if_pos hc]
      rw [seq_ok Method.first _ σ v ((first_cell σ).trans (by rw [h])),
        seq_error _ _ σ _ (error_cell _ _ σ)]
      rfl
    · simp only [if_neg hc]
      rfl

/-- Every scalar operation, run on a cell, ends as the operation on the
unwrapper over that cell does, and leaves the cell as it was. -/
theorem body_cell (w : WordSize) (op : ScalarOp) (σ : unwrapperInner) :
    op.body w σ = (op.run w ⟨σ⟩, σ) := by
  cases op
  · exact map_cell _ _ σ _ (first_cell σ)
  · exact map_cell _ _ σ _ (String_cell σ)
  · exact map_cell _ _ σ _ (Int_cell w σ)
  · exact map_cell _ _ σ _ (NonNegativeInt_cell w σ)
  · exact map_cell _ _ σ _ (FdOrClose_cell w σ)
  · exact map_cell _ _ σ _ (Callable_cell σ)
  · exact map_cell _ _ σ _ (Iterable_cell σ)

/-! ## Claims -/

/-- C1: `Unwrap(description, begin, end, vs).One()` on a sequence whose length
is not one raises the diagnostic
`"<description> must be a single value; got <len(vs)> values"`, the count in
decimal, at `(begin, end)`; on a sequence `[v]` it raises nothing and yields
the scalar unwrapper over the same context, whose value is `v`. -/
theorem C1_One_arity (ctx : EvalCtx) (desc : String) (b e : ℤ) (vs : List Value) :
    (vs.length ≠ 1 →
      (ctx.Unwrap desc b e vs).One = .error (.diagnostic ⟨b, e,
        desc ++ " must be a single value; got " ++ toString vs.length ++ " values"⟩))
    ∧ (∀ v, vs = [v] →
      (ctx.Unwrap desc b e vs).One = .ok ⟨⟨ctx, desc, b, e, [v]⟩⟩
        ∧ (⟨⟨ctx, desc, b, e, [v]⟩⟩ : ValueUnwrapper).Any = .ok v) := by
  constructor
  · intro h
    rw [One_of_length_ne _ h]
    simp only [mismatch, EvalCtx.Unwrap, formatInt, Int.ofNat_eq_coe, Int.natAbs_ofNat]
    rw [if_neg (by omega)]
    simp only [String.append_assoc]
    rfl
  · rintro v rfl
    exact ⟨One_of_length_eq _ rfl, rfl⟩

/-- C1, the scenario of the specification: description `"operand"`, span
`(5, 9)`, no values. -/
theorem C1_One_arity_witness :
    ([] : List Value).length ≠ 1
      ∧ ((EvalCtx.mk "main").Unwrap "operand" 5 9 []).One
        = .error (.diagnostic ⟨5, 9, "operand must be a single value; got 0 values"⟩) :=
  ⟨by decide, (C1_One_arity ⟨"main"⟩ "operand" 5 9 []).1 (by decide)⟩

/-- The chain `One().FdOrClose()` on a single string value that is not `"-"`
and that `Atoi` rejects raises the diagnostic of `Int()`. -/
theorem FdOrClose_unparsable (w : WordSize) (u : ValueUnwrapper) (v : Value)
    (rest : List Value) (s : String) (hu : u.inner.values = v :: rest) (hv : v.str = some s)
    (hs : s ≠ "-") (hp : (Atoi w s).2 ≠ none) :
    u.FdOrClose w
      = .error (mismatch u.inner.description u.inner.begin_ u.inner.end_ "integer" s) := by
  have h1 := String_of_some u v s (first_of_cons _ _ _ hu) hv
  have h2 := Int_of_String_ok w u s h1
  rw [if_pos hp] at h2
  rw [FdOrClose_of_String_ok w u s h1, if_neg hs, NonNegativeInt_of_Int_error w u _ h2]

theorem One_FdOrClose_unparsable (w : WordSize) (ctx : EvalCtx) (desc : String)
    (b e : ℤ) (v : Value) (s : String) (hv : v.str = some s) (hs : s ≠ "-")
    (hp : (Atoi w s).2 ≠ none) :
    ((ctx.Unwrap desc b e [v]).One >>= ValueUnwrapper.FdOrClose w)
      = .error (mismatch desc b e "integer" s) := by
  rw [One_of_length_eq (ctx.Unwrap desc b e [v]) rfl]
  exact FdOrClose_unparsable w ⟨⟨ctx, desc, b, e, [v]⟩⟩ v [] s rfl hv hs hp

/-- C2, as the code has it: for every string `s` that is not `"-"` and that
`Atoi` does not parse, `One().FdOrClose()` on the single string value `s`
raises, at the span of the unwrapper, the diagnostic whose expected kind is
`"integer"` (the one of `Int()`) and whose actual part is `s`. -/
theorem C2_FdOrClose_unparsable_integer (w : WordSize) (ctx : EvalCtx) (desc : String)
    (b e : ℤ) (v : Value) (s : String) (hv : v.str = some s) (hs : s ≠ "-")
    (hp : (Atoi w s).2 ≠ none) :
    ((ctx.Unwrap desc b e [v]).One >>= ValueUnwrapper.FdOrClose w)
      = .error (mismatch desc b e "integer" s) :=
  One_FdOrClose_unparsable w ctx desc b e v s hv hs hp

/-- C2, the scenario of the specification as the code has it: description
`"argument to close"`, span `(10, 14)`, values `["abc"]`. -/
theorem C2_FdOrClose_unparsable_integer_witness :
    (((EvalCtx.mk "main").Unwrap "argument to close" 10 14
        [⟨"string", some "abc", false, false⟩]).One >>= ValueUnwrapper.FdOrClose .w64)
      = .error (.diagnostic ⟨10, 14, "argument to close must be integer; got abc"⟩) :=
  C2_FdOrClose_unparsable_integer .w64 ⟨"main"⟩ "argument to close" 10 14
    ⟨"string", some "abc", false, false⟩ "abc" rfl (by decide) (by decide)

/-- C2 as stated fails: `"abc"` is not `"-"` and does not parse, yet the
diagnostic of `One().FdOrClose()` is not the one whose expected kind is
`"non-negative int"`, on a host of either width. -/
theorem C2_counterexample :
    "abc" ≠ "-" ∧ (Atoi .w64 "abc").2 ≠ none ∧ (Atoi .w32 "abc").2 ≠ none
      ∧ (((EvalCtx.mk "main").Unwrap "argument to close" 10 14
          [⟨"string", some "abc", false, false⟩]).One >>= ValueUnwrapper.FdOrClose .w64)
        ≠ .error (.diagnostic ⟨10, 14,
            "argument to close must be non-negative int; got abc"⟩)
      ∧ (((EvalCtx.mk "main").Unwrap "argument to close" 10 14
          [⟨"string", some "abc", false, false⟩]).One >>= ValueUnwrapper.FdOrClose .w32)
        ≠ .error (.diagnostic ⟨10, 14,
            "argument to close must be non-negative int; got abc"⟩) := by
  decide

/-- C3: on a string value `s` that matches `^[+-]?[0-9]+$` and whose value fits
the host `int`, `Int()` returns the mathematically equal integer and raises
nothing; on every other string `s` it raises the diagnostic whose expected
kind is `"integer"` and whose actual part is `s`. -/
theorem C3_Int_grammar (w : WordSize) (u : ValueUnwrapper) (v : Value) (rest : List Value)
    (s : String) (hu : u.inner.values = v :: rest) (hv : v.str = some s) :
    (matchesIntRegex s = true → fitsInt w (intValue s) = true →
      u.Int w = .ok (intValue s))
    ∧ (¬(matchesIntRegex s = true ∧ fitsInt w (intValue s) = true) →
      u.Int w
        = .error (mismatch u.inner.description u.inner.begin_ u.inner.end_ "integer" s)) := by
  have h1 := String_of_some u v s (first_of_cons _ _ _ hu) hv
  have h2 := Int_of_String_ok w u s h1
  constructor
  · intro hm hf
    rw [h2, Atoi_ok w s hm hf]
    simp
  · intro hn
    have he := Atoi_err w s (by
      simp only [Bool.and_eq_false_iff]
      by_cases hm : matchesIntRegex s = true
      · right
        simpa using fun hf => hn ⟨hm, hf⟩
      · left
        simpa using hm)
    rw [h2, if_pos he]

/-- C3 at `"-42"`, which is in the grammar and in range, and at `"1_000"`,
which is not in the grammar. -/
theorem C3_Int_grammar_witness :
    (⟨⟨⟨"main"⟩, "count", 3, 6, [⟨"string", some "-42", false, false⟩]⟩⟩ : ValueUnwrapper).Int
        .w64 = .ok (-42)
      ∧ (⟨⟨⟨"main"⟩, "count", 3, 8, [⟨"string", some "1_000", false, false⟩]⟩⟩ :
          ValueUnwrapper).Int .w32
        = .error (.diagnostic ⟨3, 8, "count must be integer; got 1_000"⟩) :=
  ⟨(C3_Int_grammar .w64 ⟨⟨⟨"main"⟩, "count", 3, 6, [⟨"string", some "-42", false, false⟩]⟩⟩
      ⟨"string", some "-42", false, false⟩ [] "-42" rfl rfl).1 (by decide) (by decide),
   (C3_Int_grammar .w32 ⟨⟨⟨"main"⟩, "count", 3, 8, [⟨"string", some "1_000", false, false⟩]⟩⟩
      ⟨"string", some "1_000", false, false⟩ [] "1_000" rfl rfl).2 (by decide)⟩

/-- C4: when `Int()` accepts the string and yields `i`, the integer `i` is in
the host range, and: if `i < 0` then `NonNegativeInt()` raises the diagnostic
whose expected kind is `"non-negative int"` and whose actual part is the
decimal rendering of `i` (the rendering that parses back to `i`), and if
`i >= 0` it returns `i` and raises nothing. -/
theorem C4_NonNegativeInt_sign (w : WordSize) (u : ValueUnwrapper) (i : ℤ)
    (h : u.Int w = .ok i) :
    fitsInt w i = true
    ∧ Atoi w (toString i) = (i, none)
    ∧ (i < 0 → u.NonNegativeInt w
      = .error (mismatch u.inner.description u.inner.begin_ u.inner.end_ "non-negative int"
          (toString i)))
    ∧ (0 ≤ i → u.NonNegativeInt w = .ok i) := by
  obtain ⟨s, -, he, hv⟩ := Int_ok_inv w u i h
  have hfit : fitsInt w i = true := by
    have := (Atoi_value_of_none w s he).2
    rw [← (Atoi_value_of_none w s he).1, hv] at this
    exact this
  rw [NonNegativeInt_of_Int_ok w u i h, ← formatInt_eq_toString]
  refine ⟨hfit, Atoi_formatInt w i hfit, ?_, ?_⟩
  · intro hi
    rw [if_pos hi]
  · intro hi
    rw [if_neg (by omega)]

/-- C4 at the rendering `"-007"` of `-7`, whose diagnostic shows `-7`, and at
the rendering `"+12"` of `12`. -/
theorem C4_NonNegativeInt_sign_witness :
    (⟨⟨⟨"main"⟩, "index", 2, 6, [⟨"string", some "-007", false, false⟩]⟩⟩ :
        ValueUnwrapper).NonNegativeInt .w64
        = .error (.diagnostic ⟨2, 6, "index must be non-negative int; got -7"⟩)
      ∧ (⟨⟨⟨"main"⟩, "index", 2, 5, [⟨"string", some "+12", false, false⟩]⟩⟩ :
          ValueUnwrapper).NonNegativeInt .w64 = .ok 12 :=
  ⟨((C4_NonNegativeInt_sign .w64
      ⟨⟨⟨"main"⟩, "index", 2, 6, [⟨"string", some "-007", false, false⟩]⟩⟩ (-7)
      (by decide)).2.2.1 (by decide)).trans (by decide),
   (C4_NonNegativeInt_sign .w64
      ⟨⟨⟨"main"⟩, "index", 2, 5, [⟨"string", some "+12", false, false⟩]⟩⟩ 12
      (by decide)).2.2.2 (by decide)⟩

/-- C5: for every description and span, `One().FdOrClose()` on the string value
`"-"` returns `-1` and raises nothing; on `"3"` it returns `3`; on `"-1"` it
raises the mismatch with expected kind `"non-negative int"` and actual part
`"-1"`; on `"x"` it raises a mismatch (the one of `Int()`). -/
theorem C5_FdOrClose_examples (w : WordSize) (ctx : EvalCtx) (desc : String) (b e : ℤ)
    (k : String) (c i : Bool) :
    ((ctx.Unwrap desc b e [⟨k, some "-", c, i⟩]).One >>= ValueUnwrapper.FdOrClose w)
        = .ok (-1)
      ∧ ((ctx.Unwrap desc b e [⟨k, some "3", c, i⟩]).One >>= ValueUnwrapper.FdOrClose w)
        = .ok 3
      ∧ ((ctx.Unwrap desc b e [⟨k, some "-1", c, i⟩]).One >>= ValueUnwrapper.FdOrClose w)
        = .error (mismatch desc b e "non-negative int" "-1")
      ∧ ((ctx.Unwrap desc b e [⟨k, some "x", c, i⟩]).One >>= ValueUnwrapper.FdOrClose w)
        = .error (mismatch desc b e "integer" "x") := by
  refine ⟨?_, ?_, ?_, ?_⟩
  · rw [One_of_length_eq (ctx.Unwrap desc b e [⟨k, some "-", c, i⟩]) rfl]
    show ValueUnwrapper.FdOrClose w ⟨⟨ctx, desc, b, e, [⟨k, some "-", c, i⟩]⟩⟩ = _
    rw [FdOrClose_of_String_ok w _ "-" (String_of_some _ _ _ (first_of_cons _ _ _ rfl) rfl)]
    rfl
  · rw [One_of_length_eq (ctx.Unwrap desc b e [⟨k, some "3", c, i⟩]) rfl]
    show ValueUnwrapper.FdOrClose w ⟨⟨ctx, desc, b, e, [⟨k, some "3", c, i⟩]⟩⟩ = _
    have hs := String_of_some ⟨⟨ctx, desc, b, e, [⟨k, some "3", c, i⟩]⟩⟩ _ "3"
      (first_of_cons _ _ _ rfl) rfl
    have hi := Int_of_String_ok w _ "3" hs
    have ha : Atoi w "3" = (3, none) := by cases w <;> decide
    rw [ha] at hi
    rw [FdOrClose_of_String_ok w _ "3" hs, if_neg (by decide),
      NonNegativeInt_of_Int_ok w _ 3 hi]
    rfl
  · rw [One_of_length_eq (ctx.Unwrap desc b e [⟨k, some "-1", c, i⟩]) rfl]
    show ValueUnwrapper.FdOrClose w ⟨⟨ctx, desc, b, e, [⟨k, some "-1", c, i⟩]⟩⟩ = _
    have hs := String_of_some ⟨⟨ctx, desc, b, e, [⟨k, some "-1", c, i⟩]⟩⟩ _ "-1"
      (first_of_cons _ _ _ rfl) rfl
    have hi := Int_of_String_ok w _ "-1" hs
    have ha : Atoi w "-1" = (-1, none) := by cases w <;> decide
    rw [ha] at hi
    rw [FdOrClose_of_String_ok w _ "-1" hs, if_neg (by decide),
      NonNegativeInt_of_Int_ok w _ (-1) hi]
    rfl
  · exact One_FdOrClose_unparsable w ctx desc b e ⟨k, some "x", c, i⟩ "x" rfl (by decide)
      (by cases w <;> decide)

/-- C6: on a value that is not a string, `String()` raises the diagnostic whose
expected kind is `"string"` and whose actual part is the value's `Kind()`; on a
string value built from `s` it returns exactly `s` and raises nothing. -/
theorem C6_String_kind (u : ValueUnwrapper) (v : Value) (rest : List Value)
    (hu : u.inner.values = v :: rest) :
    (v.str = none → u.String
      = .error (mismatch u.inner.description u.inner.begin_ u.inner.end_ "string" v.Kind))
    ∧ (∀ s, v.str = some s → u.String = .ok s) :=
  ⟨String_of_none u v (first_of_cons _ _ _ hu), fun s => String_of_some u v s
    (first_of_cons _ _ _ hu)⟩

/-- C6 at a list value, which is not a string, and at the string `"héllo"`. -/
theorem C6_String_kind_witness :
    (⟨⟨⟨"main"⟩, "name", 0, 4, [⟨"list", none, false, true⟩]⟩⟩ : ValueUnwrapper).String
        = .error (.diagnostic ⟨0, 4, "name must be string; got list"⟩)
      ∧ (⟨⟨⟨"main"⟩, "name", 0, 4, [⟨"string", some "héllo", false, false⟩]⟩⟩ :
          ValueUnwrapper).String = .ok "héllo" :=
  ⟨(C6_String_kind ⟨⟨⟨"main"⟩, "name", 0, 4, [⟨"list", none, false, true⟩]⟩⟩
      ⟨"list", none, false, true⟩ [] rfl).1 rfl,
   (C6_String_kind ⟨⟨⟨"main"⟩, "name", 0, 4, [⟨"string", some "héllo", false, false⟩]⟩⟩
      ⟨"string", some "héllo", false, false⟩ [] rfl).2 "héllo" rfl⟩

/-- C7: every diagnostic raised by `One()`, by a scalar operation on the
unwrapper of the same context, or by the chain of the two, is addressed at the
`begin` and `end` given to `Unwrap` and has a message of the form
`description ++ " must be " ++ expected ++ "; got " ++ actual` with the
description given to `Unwrap`. -/
theorem C7_diagnostic_shape (w : WordSize) (ctx : EvalCtx) (desc : String) (b e : ℤ)
    (vs : List Value) (d : Diagnostic) :
    ((ctx.Unwrap desc b e vs).One = .error (.diagnostic d)
        ∨ (∃ op : ScalarOp, op.run w ⟨(ctx.Unwrap desc b e vs).inner⟩ = .error (.diagnostic d))
        ∨ (∃ op : ScalarOp,
            ((ctx.Unwrap desc b e vs).One >>= op.run w) = .error (.diagnostic d))) →
    d.begin_ = b ∧ d.end_ = e
      ∧ ∃ expected actual, d.message = desc ++ " must be " ++ expected ++ "; got " ++ actual := by
  have hrun : ∀ op : ScalarOp,
      op.run w ⟨(ctx.Unwrap desc b e vs).inner⟩ = .error (.diagnostic d) →
      d.begin_ = b ∧ d.end_ = e
        ∧ ∃ expected actual,
          d.message = desc ++ " must be " ++ expected ++ "; got " ++ actual := by
    intro op h
    rcases run_outcome w op ⟨(ctx.Unwrap desc b e vs).inner⟩ with ⟨r, hr⟩ | ⟨-, hr⟩
      | ⟨want, got, hr⟩
    · rw [hr] at h; cases h
    · rw [hr] at h; cases h
    · rw [hr] at h
      exact mismatch_shape desc b e want got d (Except.error.inj h)
  have hone : (ctx.Unwrap desc b e vs).One = .error (.diagnostic d) →
      d.begin_ = b ∧ d.end_ = e
        ∧ ∃ expected actual,
          d.message = desc ++ " must be " ++ expected ++ "; got " ++ actual := by
    intro h
    rcases One_outcome (ctx.Unwrap desc b e vs) with ⟨-, hr⟩ | ⟨-, hr⟩
    · rw [hr] at h; cases h
    · rw [hr] at h
      exact mismatch_shape desc b e _ _ d (Except.error.inj h)
  rintro (h | ⟨op, h⟩ | ⟨op, h⟩)
  · exact hone h
  · exact hrun op h
  · rcases One_outcome (ctx.Unwrap desc b e vs) with ⟨-, hr⟩ | ⟨-, hr⟩
    · rw [hr, ok_bind] at h
      exact hrun op h
    · rw [hr, error_bind] at h
      exact mismatch_shape desc b e _ _ d (Except.error.inj h)

/-- C7 at the diagnostic that `One().Int()` raises on the single string value
`"abc"` described as `"argument to close"` at `(10, 14)`. -/
theorem C7_diagnostic_shape_witness :
    (∃ op : ScalarOp,
        (((EvalCtx.mk "main").Unwrap "argument to close" 10 14
            [⟨"string", some "abc", false, false⟩]).One >>= op.run .w64)
          = .error (.diagnostic ⟨10, 14, "argument to close must be integer; got abc"⟩))
      ∧ ((⟨10, 14, "argument to close must be integer; got abc"⟩ : Diagnostic).begin_ = 10
        ∧ (⟨10, 14, "argument to close must be integer; got abc"⟩ : Diagnostic).end_ = 14
        ∧ ∃ expected actual,
          (⟨10, 14, "argument to close must be integer; got abc"⟩ : Diagnostic).message
            = "argument to close" ++ " must be " ++ expected ++ "; got " ++ actual) :=
  ⟨⟨.Int, by decide⟩,
   C7_diagnostic_shape .w64 ⟨"main"⟩ "argument to close" 10 14
    [⟨"string", some "abc", false, false⟩]
    ⟨10, 14, "argument to close must be integer; got abc"⟩
    (Or.inr (Or.inr ⟨.Int, by decide⟩))⟩

/-- C8: every chain `Unwrap(..).One().<scalar operation>` ends either with a
value and no diagnostic or with one diagnostic and no value; and when
`len(values) != 1`, `One()` yields no scalar unwrapper and the chain ends with
the diagnostic of `One()`, so the scalar operation does not run. -/
theorem C8_no_result_after_mismatch (w : WordSize) (ctx : EvalCtx) (desc : String)
    (b e : ℤ) (vs : List Value) (op : ScalarOp) :
    ((∃ r, ((ctx.Unwrap desc b e vs).One >>= op.run w) = .ok r)
        ∨ (∃ d, ((ctx.Unwrap desc b e vs).One >>= op.run w) = .error (.diagnostic d)))
      ∧ (vs.length ≠ 1 →
          (∀ u, (ctx.Unwrap desc b e vs).One ≠ .ok u)
          ∧ (ctx.Unwrap desc b e vs).One = .error (mismatch desc b e "a single value"
              (toString vs.length ++ " values"))
          ∧ ((ctx.Unwrap desc b e vs).One >>= op.run w)
              = .error (mismatch desc b e "a single value"
                  (toString vs.length ++ " values"))) := by
  have hfmt : formatInt (Int.ofNat vs.length) = toString vs.length := by
    rw [formatInt_eq_toString]
    rfl
  constructor
  · rcases One_outcome (ctx.Unwrap desc b e vs) with ⟨h1, hr⟩ | ⟨-, hr⟩
    · rw [hr, ok_bind]
      rcases run_outcome w op ⟨(ctx.Unwrap desc b e vs).inner⟩ with ⟨r, h⟩ | ⟨h0, -⟩
        | ⟨want, got, h⟩
      · exact Or.inl ⟨r, h⟩
      · rw [show (ctx.Unwrap desc b e vs).inner.values = [] from h0] at h1
        exact absurd h1 (by decide)
      · exact Or.inr ⟨_, h⟩
    · rw [hr, error_bind]
      exact Or.inr ⟨_, rfl⟩
  · intro hlen
    have hr := One_of_length_ne (ctx.Unwrap desc b e vs) hlen
    have hr2 : (ctx.Unwrap desc b e vs).One = .error (mismatch desc b e "a single value"
        (toString vs.length ++ " values")) := by
      rw [hr, ← hfmt]
      rfl
    refine ⟨?_, hr2, ?_⟩
    · intro u hu
      rw [hr2] at hu
      cases hu
    · rw [hr2, error_bind]

/-- C8 at the scenario with no values: `One()` raises the arity diagnostic and
`Int()` does not run. -/
theorem C8_no_result_after_mismatch_witness :
    ([] : List Value).length ≠ 1
      ∧ (((EvalCtx.mk "main").Unwrap "operand" 5 9 []).One >>= ScalarOp.run .w64 .Int)
        = .error (.diagnostic ⟨5, 9, "operand must be a single value; got 0 values"⟩) :=
  ⟨by decide,
   ((C8_no_result_after_mismatch .w64 ⟨"main"⟩ "operand" 5 9 [] .Int).2
      (by decide)).2.2.trans (by decide)⟩

/-- C9: `Callable()` returns the value unchanged and raises nothing when it is
callable, and otherwise raises the diagnostic with expected kind `"callable"`
and actual part the value's `Kind()`; `Iterable()` does the same with
`"iterable"`. -/
theorem C9_Callable_Iterable (u : ValueUnwrapper) (v : Value) (rest : List Value)
    (hu : u.inner.values = v :: rest) :
    (v.callable = true → u.Callable = .ok v)
      ∧ (v.callable = false → u.Callable
          = .error (mismatch u.inner.description u.inner.begin_ u.inner.end_ "callable"
              v.Kind))
      ∧ (v.iterable = true → u.Iterable = .ok v)
      ∧ (v.iterable = false → u.Iterable
          = .error (mismatch u.inner.description u.inner.begin_ u.inner.end_ "iterable"
              v.Kind)) := by
  have hc := Callable_of_first u v (first_of_cons _ _ _ hu)
  have hi := Iterable_of_first u v (first_of_cons _ _ _ hu)
  refine ⟨?_, ?_, ?_, ?_⟩
  · intro h
    rw [hc, if_neg (by simp [h])]
  · intro h
    rw [hc, if_pos h]
  · intro h
    rw [hi, if_neg (by simp [h])]
  · intro h
    rw [hi, if_pos h]

/-- C9 at a function value, which is callable and not iterable. -/
theorem C9_Callable_Iterable_witness :
    (⟨⟨⟨"main"⟩, "handler", 7, 9, [⟨"fn", none, true, false⟩]⟩⟩ : ValueUnwrapper).Callable
        = .ok ⟨"fn", none, true, false⟩
      ∧ (⟨⟨⟨"main"⟩, "handler", 7, 9, [⟨"fn", none, true, false⟩]⟩⟩ : ValueUnwrapper).Iterable
        = .error (.diagnostic ⟨7, 9, "handler must be iterable; got fn"⟩) :=
  ⟨(C9_Callable_Iterable ⟨⟨⟨"main"⟩, "handler", 7, 9, [⟨"fn", none, true, false⟩]⟩⟩
      ⟨"fn", none, true, false⟩ [] rfl).1 rfl,
   (C9_Callable_Iterable ⟨⟨⟨"main"⟩, "handler", 7, 9, [⟨"fn", none, true, false⟩]⟩⟩
      ⟨"fn", none, true, false⟩ [] rfl).2.2.2 rfl⟩

/-- C10: a scalar unwrapper obtained from a successful `One()` holds exactly
one value, so the index read `values[0]` succeeds and none of `Any`, `String`,
`Callable`, `Iterable` fails on it; `Any()` raises nothing and returns the raw
value `vs[0]` whatever its kind. -/
theorem C10_index_exists (ctx : EvalCtx) (desc : String) (b e : ℤ) (vs : List Value)
    (u : ValueUnwrapper) (h : (ctx.Unwrap desc b e vs).One = .ok u) :
    ∃ v, vs = [v] ∧ u.inner.values = [v] ∧ u.inner.first = .ok v ∧ u.Any = .ok v
      ∧ u.String ≠ .error .indexOutOfRange
      ∧ u.Callable ≠ .error .indexOutOfRange
      ∧ u.Iterable ≠ .error .indexOutOfRange := by
  rcases One_outcome (ctx.Unwrap desc b e vs) with ⟨h1, hr⟩ | ⟨-, hr⟩
  · rw [hr] at h
    have hu : u = ⟨(ctx.Unwrap desc b e vs).inner⟩ := (Except.ok.inj h).symm
    have hvs : (ctx.Unwrap desc b e vs).inner.values = vs := rfl
    rw [hvs] at h1
    obtain ⟨v, rfl⟩ := List.length_eq_one.mp h1
    have hval : u.inner.values = [v] := by rw [hu]; rfl
    have hf : u.inner.first = .ok v := first_of_cons _ _ _ hval
    refine ⟨v, rfl, hval, hf, hf, ?_, ?_, ?_⟩
    · intro hs
      cases hv : v.str with
      | none => rw [String_of_none u v hf hv] at hs; cases hs
      | some s => rw [String_of_some u v s hf hv] at hs; cases hs
    · intro hs
      rw [Callable_of_first u v hf] at hs
      by_cases hc : v.callable = false
      · rw [if_pos hc] at hs; cases hs
      · rw [if_neg hc] at hs; cases hs
    · intro hs
      rw [Iterable_of_first u v hf] at hs
      by_cases hc : v.iterable = false
      · rw [if_pos hc] at hs; cases hs
      · rw [if_neg hc] at hs; cases hs
  · rw [hr] at h
    cases h

/-- C10 at a single map value, which is neither a string nor callable. -/
theorem C10_index_exists_witness :
    ((EvalCtx.mk "main").Unwrap "key" 1 4 [⟨"map", none, false, true⟩]).One
        = .ok ⟨⟨⟨"main"⟩, "key", 1, 4, [⟨"map", none, false, true⟩]⟩⟩
      ∧ ∃ v, [(⟨"map", none, false, true⟩ : Value)] = [v]
        ∧ (⟨⟨⟨"main"⟩, "key", 1, 4, [⟨"map", none, false, true⟩]⟩⟩ :
            ValueUnwrapper).inner.values = [v]
        ∧ (⟨⟨⟨"main"⟩, "key", 1, 4, [⟨"map", none, false, true⟩]⟩⟩ :
            ValueUnwrapper).inner.first = .ok v
        ∧ (⟨⟨⟨"main"⟩, "key", 1, 4, [⟨"map", none, false, true⟩]⟩⟩ :
            ValueUnwrapper).Any = .ok v
        ∧ (⟨⟨⟨"main"⟩, "key", 1, 4, [⟨"map", none, false, true⟩]⟩⟩ :
            ValueUnwrapper).String ≠ .error .indexOutOfRange
        ∧ (⟨⟨⟨"main"⟩, "key", 1, 4, [⟨"map", none, false, true⟩]⟩⟩ :
            ValueUnwrapper).Callable ≠ .error .indexOutOfRange
        ∧ (⟨⟨⟨"main"⟩, "key", 1, 4, [⟨"map", none, false, true⟩]⟩⟩ :
            ValueUnwrapper).Iterable ≠ .error .indexOutOfRange :=
  ⟨rfl, C10_index_exists ⟨"main"⟩ "key" 1 4 [⟨"map", none, false, true⟩]
    ⟨⟨⟨"main"⟩, "key", 1, 4, [⟨"map", none, false, true⟩]⟩⟩ rfl⟩

/-! ## Further facts shared by the claims -/

theorem Int_of_string_value (w : WordSize) (u : ValueUnwrapper) (v : Value)
    (rest : List Value) (s : String) (hu : u.inner.values = v :: rest)
    (hv : v.str = some s) :
    u.Int w = if (Atoi w s).2 ≠ none then
        .error (mismatch u.inner.description u.inner.begin_ u.inner.end_ "integer" s)
      else .ok (Atoi w s).1 :=
  Int_of_String_ok w u s (String_of_some u v s (first_of_cons _ _ _ hu) hv)

theorem FdOrClose_of_not_dash (w : WordSize) (u : ValueUnwrapper) (v : Value)
    (rest : List Value) (s : String) (hu : u.inner.values = v :: rest)
    (hv : v.str = some s) (hs : s ≠ "-") : u.FdOrClose w = u.NonNegativeInt w := by
  rw [FdOrClose_of_String_ok w u s (String_of_some u v s (first_of_cons _ _ _ hu) hv),
    if_neg hs]

/-- The messages of two mismatches with the same description differ when the
expected kinds start with different characters. -/
theorem mismatch_ne_of_head (desc : String) (b e : ℤ) (want1 want2 got1 got2 : String)
    (c1 c2 : Char) (r1 r2 : List Char) (h1 : want1.data = c1 :: r1)
    (h2 : want2.data = c2 :: r2) (hc : c1 ≠ c2) :
    mismatch desc b e want1 got1 ≠ mismatch desc b e want2 got2 := by
  intro h
  simp only [mismatch, Failure.diagnostic.injEq, Diagnostic.mk.injEq, true_and] at h
  have hd := congrArg String.data h
  simp only [String.data_append, List.append_assoc, h1, h2] at hd
  have hd2 := List.append_cancel_left hd
  have hd3 := List.append_cancel_left hd2
  simp only [List.cons_append, List.cons.injEq] at hd3
  exact hc hd3.1

theorem string_ne_integer (desc : String) (b e : ℤ) (got1 got2 : String) :
    mismatch desc b e "string" got1 ≠ mismatch desc b e "integer" got2 :=
  mismatch_ne_of_head desc b e _ _ _ _ 's' 'i' _ _ rfl rfl (by decide)

theorem string_ne_nonNegative (desc : String) (b e : ℤ) (got1 got2 : String) :
    mismatch desc b e "string" got1 ≠ mismatch desc b e "non-negative int" got2 :=
  mismatch_ne_of_head desc b e _ _ _ _ 's' 'n' _ _ rfl rfl (by decide)

theorem integer_ne_nonNegative (desc : String) (b e : ℤ) (got1 got2 : String) :
    mismatch desc b e "integer" got1 ≠ mismatch desc b e "non-negative int" got2 :=
  mismatch_ne_of_head desc b e _ _ _ _ 'i' 'n' _ _ rfl rfl (by decide)

theorem NonNegativeInt_ok_inv (w : WordSize) (u : ValueUnwrapper) (i : ℤ)
    (h : u.NonNegativeInt w = .ok i) : u.Int w = .ok i ∧ 0 ≤ i := by
  cases hi : u.Int w with
  | error x =>
    rw [NonNegativeInt_of_Int_error w u x hi] at h
    cases h
  | ok j =>
    rw [NonNegativeInt_of_Int_ok w u j hi] at h
    by_cases hj : j < 0
    · rw [if_pos hj] at h
      cases h
    · rw [if_neg hj] at h
      have hij : j = i := Except.ok.inj h
      subst hij
      exact ⟨rfl, by omega⟩

theorem FdOrClose_ok_inv (w : WordSize) (u : ValueUnwrapper) (i : ℤ)
    (h : u.FdOrClose w = .ok i) :
    ∃ s, u.String = .ok s
      ∧ ((s = "-" ∧ i = -1) ∨ (s ≠ "-" ∧ u.NonNegativeInt w = .ok i ∧ 0 ≤ i)) := by
  cases hs : u.String with
  | error x =>
    rw [FdOrClose_of_String_error w u x hs] at h
    cases h
  | ok s =>
    refine ⟨s, rfl, ?_⟩
    rw [FdOrClose_of_String_ok w u s hs] at h
    by_cases hd : s = "-"
    · rw [if_pos hd] at h
      exact Or.inl ⟨hd, (Except.ok.inj h).symm⟩
    · rw [if_neg hd] at h
      exact Or.inr ⟨hd, h, (NonNegativeInt_ok_inv w u i h).2⟩

theorem Int_error_cases (w : WordSize) (u : ValueUnwrapper) (v : Value) (rest : List Value)
    (x : Failure) (hu : u.inner.values = v :: rest) (h : u.Int w = .error x) :
    (v.str = none
        ∧ x = mismatch u.inner.description u.inner.begin_ u.inner.end_ "string" v.Kind)
      ∨ ∃ s, v.str = some s ∧ (Atoi w s).2 ≠ none
        ∧ x = mismatch u.inner.description u.inner.begin_ u.inner.end_ "integer" s := by
  have hf := first_of_cons _ _ _ hu
  cases hv : v.str with
  | none =>
    rw [Int_of_String_error w u _ (String_of_none u v hf hv)] at h
    exact Or.inl ⟨rfl, (Except.error.inj h).symm⟩
  | some s =>
    rw [Int_of_string_value w u v rest s hu hv] at h
    by_cases he : (Atoi w s).2 ≠ none
    · rw [if_pos he] at h
      exact Or.inr ⟨s, rfl, he, (Except.error.inj h).symm⟩
    · rw [if_neg he] at h
      cases h

theorem Int_of_Atoi_ok (w : WordSize) (u : ValueUnwrapper) (v : Value) (rest : List Value)
    (s : String) (n : ℤ) (hu : u.inner.values = v :: rest) (hv : v.str = some s)
    (ha : Atoi w s = (n, none)) : u.Int w = .ok n := by
  rw [Int_of_string_value w u v rest s hu hv, ha]
  simp

theorem Int_of_Atoi_error (w : WordSize) (u : ValueUnwrapper) (v : Value)
    (rest : List Value) (s : String) (hu : u.inner.values = v :: rest) (hv : v.str = some s)
    (ha : (Atoi w s).2 ≠ none) :
    u.Int w
      = .error (mismatch u.inner.description u.inner.begin_ u.inner.end_ "integer" s) := by
  rw [Int_of_string_value w u v rest s hu hv, if_pos ha]

/-! ## Claims, continued -/

/-- C11: on a string value `s` other than `"-"`, `FdOrClose()` has the outcome
of `NonNegativeInt()` on the same unwrapper: the same integer when it
succeeds and the same diagnostic, message and span, when it fails. -/
theorem C11_FdOrClose_falls_through (w : WordSize) (u : ValueUnwrapper) (v : Value)
    (rest : List Value) (s : String) (hu : u.inner.values = v :: rest)
    (hv : v.str = some s) (hs : s ≠ "-") : u.FdOrClose w = u.NonNegativeInt w :=
  FdOrClose_of_not_dash w u v rest s hu hv hs

/-- C11 at `"17"`, where both return `17`, and at `"-1"`, where both raise the
diagnostic of `NonNegativeInt()`. -/
theorem C11_FdOrClose_falls_through_witness :
    ((⟨⟨⟨"main"⟩, "fd", 4, 6, [⟨"string", some "17", false, false⟩]⟩⟩ :
          ValueUnwrapper).FdOrClose .w64
        = (⟨⟨⟨"main"⟩, "fd", 4, 6, [⟨"string", some "17", false, false⟩]⟩⟩ :
          ValueUnwrapper).NonNegativeInt .w64
      ∧ (⟨⟨⟨"main"⟩, "fd", 4, 6, [⟨"string", some "17", false, false⟩]⟩⟩ :
          ValueUnwrapper).NonNegativeInt .w64 = .ok 17)
    ∧ ((⟨⟨⟨"main"⟩, "fd", 4, 6, [⟨"string", some "-1", false, false⟩]⟩⟩ :
          ValueUnwrapper).FdOrClose .w32
        = (⟨⟨⟨"main"⟩, "fd", 4, 6, [⟨"string", some "-1", false, false⟩]⟩⟩ :
          ValueUnwrapper).NonNegativeInt .w32
      ∧ (⟨⟨⟨"main"⟩, "fd", 4, 6, [⟨"string", some "-1", false, false⟩]⟩⟩ :
          ValueUnwrapper).NonNegativeInt .w32
        = .error (.diagnostic ⟨4, 6, "fd must be non-negative int; got -1"⟩)) :=
  ⟨⟨C11_FdOrClose_falls_through .w64
      ⟨⟨⟨"main"⟩, "fd", 4, 6, [⟨"string", some "17", false, false⟩]⟩⟩
      ⟨"string", some "17", false, false⟩ [] "17" rfl rfl (by decide), by decide⟩,
   ⟨C11_FdOrClose_falls_through .w32
      ⟨⟨⟨"main"⟩, "fd", 4, 6, [⟨"string", some "-1", false, false⟩]⟩⟩
      ⟨"string", some "-1", false, false⟩ [] "-1" rfl rfl (by decide), by decide⟩⟩

/-- C12: run on the cell behind the unwrapper, `One()`, every scalar operation,
and the chain of the two end as the operations on the unwrapper do and leave
the cell (context, description, begin, end and values) as it was, whether they
succeed or fail; and the scalar unwrapper that a successful `One()` returns
carries the description, begin, end and values of the sequence unwrapper. -/
theorem C12_no_mutation (w : WordSize) (σ : unwrapperInner) (op : ScalarOp) :
    Method.One σ = ((⟨σ⟩ : ValuesUnwrapper).One, σ)
      ∧ op.body w σ = (op.run w ⟨σ⟩, σ)
      ∧ ((Method.One >>= fun _ => op.body w) σ).2 = σ
      ∧ (∀ u : ValueUnwrapper, (⟨σ⟩ : ValuesUnwrapper).One = .ok u →
          u.inner.description = σ.description ∧ u.inner.begin_ = σ.begin_
            ∧ u.inner.end_ = σ.end_ ∧ u.inner.values = σ.values) := by
  refine ⟨One_cell σ, body_cell w op σ, ?_, ?_⟩
  · cases h : (⟨σ⟩ : ValuesUnwrapper).One with
    | error x =>
      rw [seq_error Method.One _ σ x ((One_cell σ).trans (by rw [h]))]
    | ok u =>
      rw [seq_ok Method.One _ σ u ((One_cell σ).trans (by rw [h])), body_cell w op σ]
  · intro u hu
    rcases One_outcome ⟨σ⟩ with ⟨-, hr⟩ | ⟨-, hr⟩
    · rw [hr] at hu
      have : u = ⟨σ⟩ := (Except.ok.inj hu).symm
      subst this
      exact ⟨rfl, rfl, rfl, rfl⟩
    · rw [hr] at hu
      cases hu

/-- C12 at a cell with one string value on which `Int()` fails: the cell after
the chain `One().Int()` is the cell before it, and the unwrapper that `One()`
returns carries the four fields. -/
theorem C12_no_mutation_witness :
    ((Method.One >>= fun _ => ScalarOp.body .w64 .Int)
        ⟨⟨"main"⟩, "count", 3, 8, [⟨"string", some "1_000", false, false⟩]⟩)
      = (.error (.diagnostic ⟨3, 8, "count must be integer; got 1_000"⟩),
          ⟨⟨"main"⟩, "count", 3, 8, [⟨"string", some "1_000", false, false⟩]⟩)
    ∧ ((⟨⟨⟨"main"⟩, "count", 3, 8, [⟨"string", some "1_000", false, false⟩]⟩⟩ :
          ValueUnwrapper).inner.description = "count"
      ∧ (⟨⟨⟨"main"⟩, "count", 3, 8, [⟨"string", some "1_000", false, false⟩]⟩⟩ :
          ValueUnwrapper).inner.begin_ = 3
      ∧ (⟨⟨⟨"main"⟩, "count", 3, 8, [⟨"string", some "1_000", false, false⟩]⟩⟩ :
          ValueUnwrapper).inner.end_ = 8
      ∧ (⟨⟨⟨"main"⟩, "count", 3, 8, [⟨"string", some "1_000", false, false⟩]⟩⟩ :
          ValueUnwrapper).inner.values = [⟨"string", some "1_000", false, false⟩]) :=
  ⟨by decide,
   (C12_no_mutation .w64 ⟨⟨"main"⟩, "count", 3, 8, [⟨"string", some "1_000", false, false⟩]⟩
      .Int).2.2.2 ⟨⟨⟨"main"⟩, "count", 3, 8, [⟨"string", some "1_000", false, false⟩]⟩⟩ rfl⟩

/-- C13: `ExecAndUnwrap(desc, op)` is `Unwrap(desc, op.Begin, op.End,
op.Exec(ctx))`: the unwrapper holds the context, `desc`, the begin and end of
the operation and the values the operation produced, in order, and `One()`
and every chain after it end the same way for both. -/
theorem C13_ExecAndUnwrap (w : WordSize) (ctx : EvalCtx) (desc : String) (op : ValuesOp)
    (sop : ScalarOp) :
    ctx.ExecAndUnwrap desc op = ctx.Unwrap desc op.Begin op.End (op.Exec ctx)
      ∧ (ctx.ExecAndUnwrap desc op).inner = ⟨ctx, desc, op.Begin, op.End, op.Exec ctx⟩
      ∧ (ctx.ExecAndUnwrap desc op).One
          = (ctx.Unwrap desc op.Begin op.End (op.Exec ctx)).One
      ∧ ((ctx.ExecAndUnwrap desc op).One >>= sop.run w)
          = ((ctx.Unwrap desc op.Begin op.End (op.Exec ctx)).One >>= sop.run w) :=
  ⟨rfl, rfl, rfl, rfl⟩

/-- C14: `Unwrap` validates nothing: for every description, every pair of
integers `begin` and `end` and every sequence of values it returns the
unwrapper that holds exactly the context and these four inputs; so it does for
a span that runs backwards from a negative offset over no values. -/
theorem C14_Unwrap_aggregates (ctx : EvalCtx) (desc : String) (b e : ℤ) (vs : List Value) :
    (ctx.Unwrap desc b e vs).inner.ctx = ctx
      ∧ (ctx.Unwrap desc b e vs).inner.description = desc
      ∧ (ctx.Unwrap desc b e vs).inner.begin_ = b
      ∧ (ctx.Unwrap desc b e vs).inner.end_ = e
      ∧ (ctx.Unwrap desc b e vs).inner.values = vs
      ∧ (ctx.Unwrap desc (-1) (-7) []).inner = ⟨ctx, desc, -1, -7, []⟩ :=
  ⟨rfl, rfl, rfl, rfl, rfl, rfl⟩

/-- C15: on a value that is not a string, `Int()`, `NonNegativeInt()` and
`FdOrClose()` each raise exactly the diagnostic of `String()`, with expected
kind `"string"` and actual part the value's `Kind()`; this diagnostic is none
with expected kind `"integer"` or `"non-negative int"`. -/
theorem C15_kind_check_first (w : WordSize) (u : ValueUnwrapper) (v : Value)
    (rest : List Value) (hu : u.inner.values = v :: rest) (hv : v.str = none) :
    u.String
        = .error (mismatch u.inner.description u.inner.begin_ u.inner.end_ "string" v.Kind)
      ∧ u.Int w
        = .error (mismatch u.inner.description u.inner.begin_ u.inner.end_ "string" v.Kind)
      ∧ u.NonNegativeInt w
        = .error (mismatch u.inner.description u.inner.begin_ u.inner.end_ "string" v.Kind)
      ∧ u.FdOrClose w
        = .error (mismatch u.inner.description u.inner.begin_ u.inner.end_ "string" v.Kind)
      ∧ (∀ got, mismatch u.inner.description u.inner.begin_ u.inner.end_ "string" v.Kind
          ≠ mismatch u.inner.description u.inner.begin_ u.inner.end_ "integer" got)
      ∧ (∀ got, mismatch u.inner.description u.inner.begin_ u.inner.end_ "string" v.Kind
          ≠ mismatch u.inner.description u.inner.begin_ u.inner.end_ "non-negative int"
              got) := by
  have hs := String_of_none u v (first_of_cons _ _ _ hu) hv
  have hi := Int_of_String_error w u _ hs
  exact ⟨hs, hi, NonNegativeInt_of_Int_error w u _ hi, FdOrClose_of_String_error w u _ hs,
    fun got => string_ne_integer _ _ _ _ got, fun got => string_ne_nonNegative _ _ _ _ got⟩

/-- C15 at a list value whose kind name reads like a number. -/
theorem C15_kind_check_first_witness :
    (⟨⟨⟨"main"⟩, "fd", 0, 2, [⟨"12", none, false, true⟩]⟩⟩ : ValueUnwrapper).FdOrClose .w64
        = .error (.diagnostic ⟨0, 2, "fd must be string; got 12"⟩)
      ∧ (⟨⟨⟨"main"⟩, "fd", 0, 2, [⟨"12", none, false, true⟩]⟩⟩ :
          ValueUnwrapper).NonNegativeInt .w64
        = .error (.diagnostic ⟨0, 2, "fd must be string; got 12"⟩)
      ∧ (⟨⟨⟨"main"⟩, "fd", 0, 2, [⟨"12", none, false, true⟩]⟩⟩ : ValueUnwrapper).Int .w64
        = .error (.diagnostic ⟨0, 2, "fd must be string; got 12"⟩) :=
  ⟨(C15_kind_check_first .w64 ⟨⟨⟨"main"⟩, "fd", 0, 2, [⟨"12", none, false, true⟩]⟩⟩
      ⟨"12", none, false, true⟩ [] rfl rfl).2.2.2.1,
   (C15_kind_check_first .w64 ⟨⟨⟨"main"⟩, "fd", 0, 2, [⟨"12", none, false, true⟩]⟩⟩
      ⟨"12", none, false, true⟩ [] rfl rfl).2.2.1,
   (C15_kind_check_first .w64 ⟨⟨⟨"main"⟩, "fd", 0, 2, [⟨"12", none, false, true⟩]⟩⟩
      ⟨"12", none, false, true⟩ [] rfl rfl).2.1⟩

/-- C16: whenever `FdOrClose()` succeeds, the value is a string, the result is
at least `-1`, it is `-1` exactly when the string is `"-"`, and on every other
string it is the non-negative result of `NonNegativeInt()`. -/
theorem C16_FdOrClose_range (w : WordSize) (u : ValueUnwrapper) (i : ℤ)
    (h : u.FdOrClose w = .ok i) :
    ∃ s, u.String = .ok s ∧ -1 ≤ i ∧ (i = -1 ↔ s = "-")
      ∧ (s ≠ "-" → 0 ≤ i ∧ u.NonNegativeInt w = .ok i) := by
  obtain ⟨s, hs, hc⟩ := FdOrClose_ok_inv w u i h
  refine ⟨s, hs, ?_, ?_, ?_⟩
  · rcases hc with ⟨-, hi⟩ | ⟨-, -, hi⟩ <;> omega
  · rcases hc with ⟨hd, hi⟩ | ⟨hd, -, hi⟩
    · exact ⟨fun _ => hd, fun _ => hi⟩
    · exact ⟨fun h1 => by omega, fun h1 => absurd h1 hd⟩
  · intro hd
    rcases hc with ⟨hd1, -⟩ | ⟨-, hn, hi⟩
    · exact absurd hd1 hd
    · exact ⟨hi, hn⟩

/-- C16 at `"-0"`, which is not the close sentinel and gives `0`, as `"+0"`
does. -/
theorem C16_FdOrClose_range_witness :
    (⟨⟨⟨"main"⟩, "fd", 0, 2, [⟨"string", some "-0", false, false⟩]⟩⟩ :
        ValueUnwrapper).FdOrClose .w64 = .ok 0
      ∧ (⟨⟨⟨"main"⟩, "fd", 0, 2, [⟨"string", some "+0", false, false⟩]⟩⟩ :
        ValueUnwrapper).FdOrClose .w64 = .ok 0
      ∧ ∃ s, (⟨⟨⟨"main"⟩, "fd", 0, 2, [⟨"string", some "-0", false, false⟩]⟩⟩ :
            ValueUnwrapper).String = .ok s
        ∧ (-1 : ℤ) ≤ 0 ∧ ((0 : ℤ) = -1 ↔ s = "-")
        ∧ (s ≠ "-" → (0 : ℤ) ≤ 0
          ∧ (⟨⟨⟨"main"⟩, "fd", 0, 2, [⟨"string", some "-0", false, false⟩]⟩⟩ :
            ValueUnwrapper).NonNegativeInt .w64 = .ok 0) :=
  ⟨by decide, by decide,
   C16_FdOrClose_range .w64
    ⟨⟨⟨"main"⟩, "fd", 0, 2, [⟨"string", some "-0", false, false⟩]⟩⟩ 0 (by decide)⟩

/-- C17: whenever `NonNegativeInt()` succeeds, `Int()` on the same unwrapper
succeeds with the same integer, which is at least zero; whenever `Int()`
fails, `NonNegativeInt()` fails with the identical failure, which on an
unwrapper that holds a value is the mismatch of `String()` or of `Int()` and
none with expected kind `"non-negative int"`. -/
theorem C17_NonNegativeInt_refines_Int (w : WordSize) (u : ValueUnwrapper) :
    (∀ i, u.NonNegativeInt w = .ok i → u.Int w = .ok i ∧ 0 ≤ i)
      ∧ (∀ x, u.Int w = .error x → u.NonNegativeInt w = .error x)
      ∧ (∀ x v rest, u.inner.values = v :: rest → u.Int w = .error x →
          ((x = mismatch u.inner.description u.inner.begin_ u.inner.end_ "string" v.Kind
              ∨ ∃ s, x = mismatch u.inner.description u.inner.begin_ u.inner.end_
                  "integer" s)
            ∧ ∀ got, x ≠ mismatch u.inner.description u.inner.begin_ u.inner.end_
                "non-negative int" got)) := by
  refine ⟨fun i h => NonNegativeInt_ok_inv w u i h,
    fun x h => NonNegativeInt_of_Int_error w u x h, ?_⟩
  intro x v rest hu h
  rcases Int_error_cases w u v rest x hu h with ⟨-, hx⟩ | ⟨s, -, -, hx⟩
  · subst hx
    exact ⟨Or.inl rfl, fun got => string_ne_nonNegative _ _ _ _ got⟩
  · subst hx
    exact ⟨Or.inr ⟨s, rfl⟩, fun got => integer_ne_nonNegative _ _ _ s got⟩

/-- C17 at `"7"`, where both return `7`, and at `"7x"`, where both raise the
diagnostic of `Int()`. -/
theorem C17_NonNegativeInt_refines_Int_witness :
    ((⟨⟨⟨"main"⟩, "n", 1, 2, [⟨"string", some "7", false, false⟩]⟩⟩ : ValueUnwrapper).Int
          .w64 = .ok 7 ∧ (0 : ℤ) ≤ 7)
      ∧ (⟨⟨⟨"main"⟩, "n", 1, 3, [⟨"string", some "7x", false, false⟩]⟩⟩ :
          ValueUnwrapper).NonNegativeInt .w64
        = .error (.diagnostic ⟨1, 3, "n must be integer; got 7x"⟩) :=
  ⟨(C17_NonNegativeInt_refines_Int .w64
      ⟨⟨⟨"main"⟩, "n", 1, 2, [⟨"string", some "7", false, false⟩]⟩⟩).1 7 (by decide),
   (C17_NonNegativeInt_refines_Int .w64
      ⟨⟨⟨"main"⟩, "n", 1, 3, [⟨"string", some "7x", false, false⟩]⟩⟩).2.1
      (.diagnostic ⟨1, 3, "n must be integer; got 7x"⟩) (by decide)⟩

/-- C18: with a 64-bit host integer, `Int()` returns `"9223372036854775807"`
and `"-9223372036854775808"` exactly and raises the diagnostic with expected
kind `"integer"` and the input string as actual part on
`"9223372036854775808"`, on `"-9223372036854775809"` and on every string of the
grammar whose value is outside the range, instead of a wrapped or saturated
value; leading zeros do not count: `"0009"` gives `9`. -/
theorem C18_Int_range (ctx : EvalCtx) (desc : String) (b e : ℤ) (k : String) (c i : Bool) :
    (⟨⟨ctx, desc, b, e, [⟨k, some "9223372036854775807", c, i⟩]⟩⟩ : ValueUnwrapper).Int .w64
        = .ok 9223372036854775807
      ∧ (⟨⟨ctx, desc, b, e, [⟨k, some "-9223372036854775808", c, i⟩]⟩⟩ :
          ValueUnwrapper).Int .w64 = .ok (-9223372036854775808)
      ∧ (⟨⟨ctx, desc, b, e, [⟨k, some "9223372036854775808", c, i⟩]⟩⟩ :
          ValueUnwrapper).Int .w64
        = .error (mismatch desc b e "integer" "9223372036854775808")
      ∧ (⟨⟨ctx, desc, b, e, [⟨k, some "-9223372036854775809", c, i⟩]⟩⟩ :
          ValueUnwrapper).Int .w64
        = .error (mismatch desc b e "integer" "-9223372036854775809")
      ∧ (⟨⟨ctx, desc, b, e, [⟨k, some "0009", c, i⟩]⟩⟩ : ValueUnwrapper).Int .w64 = .ok 9
      ∧ (∀ s, matchesIntRegex s = true → fitsInt .w64 (intValue s) = false →
          (⟨⟨ctx, desc, b, e, [⟨k, some s, c, i⟩]⟩⟩ : ValueUnwrapper).Int .w64
            = .error (mismatch desc b e "integer" s)) := by
  refine ⟨?_, ?_, ?_, ?_, ?_, ?_⟩
  · exact Int_of_Atoi_ok .w64 _ _ [] "9223372036854775807" _ rfl rfl (by decide)
  · exact Int_of_Atoi_ok .w64 _ _ [] "-9223372036854775808" _ rfl rfl (by decide)
  · exact Int_of_Atoi_error .w64 _ _ [] "9223372036854775808" rfl rfl (by decide)
  · exact Int_of_Atoi_error .w64 _ _ [] "-9223372036854775809" rfl rfl (by decide)
  · exact Int_of_Atoi_ok .w64 _ _ [] "0009" _ rfl rfl (by decide)
  · intro s _ hf
    exact Int_of_Atoi_error .w64 _ _ [] s rfl rfl
      (Atoi_err .w64 s (by rw [hf, Bool.and_false]))

/-- C18 at `"00018446744073709551616"`, the numeral of `2 ^ 64` with leading
zeros, which a wrapping parser would read as `0`. -/
theorem C18_Int_range_witness :
    matchesIntRegex "00018446744073709551616" = true
      ∧ fitsInt .w64 (intValue "00018446744073709551616") = false
      ∧ (⟨⟨⟨"main"⟩, "size", 2, 25, [⟨"string", some "00018446744073709551616", false,
            false⟩]⟩⟩ : ValueUnwrapper).Int .w64
        = .error (.diagnostic ⟨2, 25,
            "size must be integer; got 00018446744073709551616"⟩) :=
  ⟨by decide, by decide,
   (C18_Int_range ⟨"main"⟩ "size" 2 25 "string" false false).2.2.2.2.2
      "00018446744073709551616" (by decide) (by decide)⟩

end Eval
